import Mathlib

/-!
# console-tool: the request pipeline of `main.go`

A shallow embedding of the HTTP handler of `main.go` and of the functions it
calls (`usercode`, `downloadFiles`, `collectFiles`, `uploadFiles`, `send_ok`,
`send_err`, `check_panic`), followed by the properties proved about them.

Everything outside the process (clock, filesystem, network, the spawned
command, the JSON decoder) is an explicit field of `Env`; each function
returns, next to its Go results, the directories present afterwards and the
list of external operations it performed, oldest first.
-/

namespace ConsoleTool

/-! ## Data model -/

/-- Dynamic values that occur in a `map[string]any` of this program: what
`encoding/json` decodes into, plus the `[]map[string]string` that `usercode`
stores under `uploaded_files`. A `float64` is carried as its bit pattern, the
program never computes with one. -/
inductive GoVal where
  | null
  | bool (b : Bool)
  | float64 (bits : Nat)
  | str (s : String)
  | slice (xs : List GoVal)
  | object (kvs : List (String × GoVal))
  | records (rs : List (List (String × String)))

/-- A `map[string]any`, as an association list; the nil map is the empty list. -/
abbrev GoMap := List (String × GoVal)

/-- Map index expression `m[k]` with the comma-ok result. -/
def GoMap.get : GoMap → String → Option GoVal
  | [], _ => none
  | (k, v) :: rest, key => if k = key then some v else GoMap.get rest key

/-- Map assignment `m[k] = v`. -/
def GoMap.set (m : GoMap) (key : String) (v : GoVal) : GoMap :=
  (key, v) :: m.filter (fun kv => decide (kv.1 ≠ key))

/-- Type assertion `x.(string)` on the result of a map index expression: a
missing key yields the nil interface, on which the assertion fails. -/
def asString : Option GoVal → Option String
  | some (.str s) => some s
  | _ => none

/-- One record of `uploaded_files`, a `map[string]string`. -/
abbrev UploadEntry := List (String × String)

/-- The directories present on the filesystem, by path. -/
abbrev Disk := List String

/-- External operations, in the order the program performs them; `create`
is the `os.Create` of a downloaded file. -/
inductive Event where
  | mkdirAll (path : String)
  | httpGet (url : String)
  | create (path : String)
  | exec (name : String) (args : List String) (dir : String) (env : List String)
  | walk (root : String)
  | upload (file : String) (url : String) (token : String)
  | removeAll (path : String)
  deriving DecidableEq, Repr

/-- How a Go call ends: a value with a nil error, a non-nil error, or a
runtime panic that unwinds the stack. -/
inductive Outcome (α : Type) where
  | ok (a : α)
  | err (msg : String)
  | panicked (v : String)

/-- What becomes of a downloaded body: `os.Create` on the joined path
`filepath.Join(tmpDir, fileName)` fails, `io.Copy` fails, or the file is
written. -/
inductive StoreResult where
  | createFailed (e : String)
  | saveFailed (e : String)
  | saved

/-- What the body of one `downloadFiles` iteration meets after the two field
checks: `http.Get` fails, or answers with a status code, after which the body
is stored; a runtime panic is the third way out. -/
inductive FetchResult where
  | getFailed (e : String)
  | responded (status : Int) (stored : StoreResult)
  | panicked (v : String)

/-- How `cmd.CombinedOutput()` ends. -/
inductive ExecStatus where
  | exited
  | failed (e : String)
  | panicked (v : String)

/-- Result of running the command: the combined output, how it ended and the
directories present afterwards (a command may create and remove any). -/
structure ExecResult where
  output : String
  status : ExecStatus
  disk : Disk

/-- One call of the `filepath.Walk` callback. -/
inductive Visit where
  | entry (path : String) (isDir : Bool)
  | failure (path : String) (e : String)

/-- What the closure of one `uploadFiles` iteration meets, step by step:
the first failing call, or the HTTP response with the file size, the status
code, the body and the result of decoding the body. -/
inductive UploadAttempt where
  | statFailed (e : String)
  | openFailed (e : String)
  | formFileFailed (e : String)
  | copyFailed (e : String)
  | closeFailed (e : String)
  | newRequestFailed (e : String)
  | doFailed (e : String)
  | responded (size : Int) (status : Int) (body : String)
      (decoded : Except String (String × String))

/-- The `request` struct. -/
structure request where
  Jsonrpc : String
  ID : String
  Method : String
  Params : GoMap

/-- The `respError` struct. -/
structure respError where
  Code : Int
  Message : String

/-- The `response` struct; `Error` is a pointer, nil is `none`. -/
structure response where
  Jsonrpc : String
  ID : String
  Result : GoMap
  Error : Option respError

/-- The incoming `*http.Request` as far as the handler reads it: the result
of `io.ReadAll(r.Body)` and the `x-request-id` header. -/
structure HttpRequest where
  body : Except String String
  requestId : String

/-- Everything outside the process.
`tempDir` is `os.TempDir()`;
`nanos` is the reading of `time.Now().UnixNano()` in `usercode`;
`mkdirAll` is the error of creating a directory that is not there yet;
`upload` is what the attempt on a file meets (a walk lists a path once);
`removeAll` is the error of `os.RemoveAll`, if any. -/
structure Env where
  tempDir : String
  nanos : Int
  environ : List String
  unmarshal : String → Except String request
  mkdirAll : Disk → String → Option String
  fetch : String → String → String → FetchResult
  run : String → List String → String → List String → Disk → ExecResult
  walk : String → Disk → List Visit
  upload : String → String → String → UploadAttempt
  removeAll : Disk → String → Option String

/-- Go results of a call together with the directories left on disk and the
external operations performed. -/
structure Run (α : Type) where
  out : Outcome α
  disk : Disk
  trace : List Event

/-! ## Library functions -/

/-- The decimal digit `d` as a character. -/
def digitChar (d : Nat) : Char := Char.ofNat (48 + d)

/-- Decimal digits of `u`, least significant first (`strconv`'s loop: emit
`u mod 10` while `u >= 10`, then the leading digit). -/
def decimalRev : Nat → Nat → List Char
  | 0, _ => []
  | fuel + 1, u =>
    if u < 10 then [digitChar u] else digitChar (u % 10) :: decimalRev fuel (u / 10)

/-- Decimal text of a natural number. -/
def formatUint (u : Nat) : String := ⟨(decimalRev (u + 1) u).reverse⟩

/-- The verb `%d` of `fmt` on an integer. -/
def formatInt : Int → String
  | .ofNat n => formatUint n
  | .negSucc n => "-" ++ formatUint (n + 1)

/-- The elements of a path, split at the separator. -/
def splitPath : List Char → List (List Char)
  | [] => [[]]
  | c :: cs =>
    if c = '/' then [] :: splitPath cs
    else
      match splitPath cs with
      | [] => [[c]]
      | s :: rest => (c :: s) :: rest

/-- One element in the loop of `filepath.Clean`, the elements kept so far
last first: an empty element and "." are passed over, ".." takes the last
kept element away when there is one that is not "..", is kept on a path that
is not rooted, and is dropped at the root; any other element is kept. -/
def cleanStep (rooted : Bool) (kept : List (List Char)) (elem : List Char) :
    List (List Char) :=
  if elem = [] ∨ elem = ['.'] then kept
  else if elem = ['.', '.'] then
    match kept with
    | top :: rest => if top = ['.', '.'] then elem :: kept else rest
    | [] => if rooted then [] else [elem]
  else elem :: kept

/-- Elements written one after the other with a separator in between. -/
def joinPath : List (List Char) → List Char
  | [] => []
  | [e] => e
  | e :: rest => e ++ '/' :: joinPath rest

/-- The function `filepath.Clean`: the shortest path naming the same place
by lexical processing; the empty result is ".". -/
def filepathClean (path : String) : String :=
  if path = "" then "."
  else
    let rooted := path.data.head? == some '/'
    let kept := (splitPath path.data).foldl (cleanStep rooted) []
    let body := joinPath kept.reverse
    if rooted then ⟨'/' :: body⟩ else if body = [] then "." else ⟨body⟩

/-- The function `filepath.Join` on two elements: empty elements are left
out, the rest is joined with the separator and cleaned. -/
def filepathJoin (dir name : String) : String :=
  if dir ≠ "" then filepathClean (dir ++ "/" ++ name)
  else if name ≠ "" then filepathClean name
  else ""

/-- Last element of a path (`filepath.Base`): trailing separators are
stripped first; the empty path gives ".", a path of separators gives "/". -/
def filepathBase (path : String) : String :=
  if path = "" then "."
  else
    let stripped := (path.data.reverse.dropWhile (fun c => c == '/')).reverse
    let last := (stripped.reverse.takeWhile (fun c => c != '/')).reverse
    if last = [] then "/" else ⟨last⟩

/-- Whether `q` is `p` or lies below `p`. -/
def inTree (p q : String) : Bool := q == p || (p.data ++ ['/']).isPrefixOf q.data

/-- The call `os.MkdirAll(path, 0777)`: nil at once when the directory is
there, else the directory is created unless the system refuses. -/
def osMkdirAll (env : Env) (disk : Disk) (path : String) : Option String × Disk :=
  if path ∈ disk then (none, disk)
  else
    match env.mkdirAll disk path with
    | some e => (some e, disk)
    | none => (none, path :: disk)

/-- The call `os.RemoveAll(path)`: on success the path and all below it are
gone; on failure the path is still there (the disk is left as it was) and
the error is returned. -/
def osRemoveAll (env : Env) (disk : Disk) (path : String) : Option String × Disk :=
  match env.removeAll disk path with
  | some e => (some e, disk)
  | none => (none, disk.filter (fun q => !inTree path q))

/-! ## The program -/

/-- The function `downloadFiles`: every entry must be an object with non-empty
string fields `file_link` and `file_name`; the first failure ends the loop. -/
def downloadFiles (env : Env) (tmpDir : String) : List GoVal → Outcome Unit × List Event
  | [] => (.ok (), [])
  | .object fileObj :: rest =>
    match asString (GoMap.get fileObj "file_link") with
    | none => (.err "file_link is required for each file", [])
    | some fileLink =>
      if fileLink = "" then (.err "file_link is required for each file", [])
      else
        match asString (GoMap.get fileObj "file_name") with
        | none => (.err "file_name is required for each file", [])
        | some fileName =>
          if fileName = "" then (.err "file_name is required for each file", [])
          else
            match env.fetch fileLink fileName tmpDir with
            | .getFailed e =>
              (.err ("failed to download file " ++ fileName ++ ": " ++ e), [.httpGet fileLink])
            | .panicked v => (.panicked v, [.httpGet fileLink])
            | .responded status stored =>
              if status ≠ 200 then
                (.err ("failed to download file " ++ fileName ++ ": HTTP " ++ formatInt status),
                  [.httpGet fileLink])
              else
                let filePath := filepathJoin tmpDir fileName
                match stored with
                | .createFailed e =>
                  (.err ("failed to create file " ++ filePath ++ ": " ++ e),
                    [.httpGet fileLink, .create filePath])
                | .saveFailed e =>
                  (.err ("failed to save file " ++ fileName ++ ": " ++ e),
                    [.httpGet fileLink, .create filePath])
                | .saved =>
                  let r := downloadFiles env tmpDir rest
                  (r.1, .httpGet fileLink :: .create filePath :: r.2)
  | _ :: _ => (.err "each file must be an object", [])

/-- The callback loop of `collectFiles`: a visit that carries an error stops
the walk with that error, any other visit appends the path unless it is a
directory. -/
def collectVisits (files : List String) : List Visit → List String × Option String
  | [] => (files, none)
  | .failure _ e :: _ => (files, some e)
  | .entry path isDir :: rest =>
    if !isDir then collectVisits (files ++ [path]) rest else collectVisits files rest

/-- The function `collectFiles`. -/
def collectFiles (env : Env) (tmpDir : String) (disk : Disk) : List String × Option String :=
  collectVisits [] (env.walk tmpDir disk)

/-- The closure run for one file in `uploadFiles`: it appends the record of a
completed upload itself and returns nil, or returns the error of the first
failing step. -/
def uploadAttempt (env : Env) (uploadedFiles : List UploadEntry)
    (filePath uploadURL accessToken : String) : List UploadEntry × Option String :=
  match env.upload filePath uploadURL accessToken with
  | .statFailed e => (uploadedFiles, some ("failed to stat file " ++ filePath ++ ": " ++ e))
  | .openFailed e => (uploadedFiles, some ("failed to open file " ++ filePath ++ ": " ++ e))
  | .formFileFailed e => (uploadedFiles, some ("failed to create form file: " ++ e))
  | .copyFailed e => (uploadedFiles, some ("failed to copy file content: " ++ e))
  | .closeFailed e => (uploadedFiles, some ("failed to close multipart writer: " ++ e))
  | .newRequestFailed e => (uploadedFiles, some ("failed to create request: " ++ e))
  | .doFailed e => (uploadedFiles, some ("failed to upload file " ++ filePath ++ ": " ++ e))
  | .responded size status body decoded =>
    if status ≠ 200 then
      (uploadedFiles, some ("upload failed for file " ++ filePath ++ ": status "
        ++ formatInt status ++ ", body: " ++ body))
    else
      match decoded with
      | .error _ =>
        (uploadedFiles ++ [[("filename", filepathBase filePath), ("size", formatInt size),
          ("status", "uploaded")]], none)
      | .ok (title, fileName) =>
        (uploadedFiles ++ [[("file_name", title), ("size", formatInt size),
          ("file_link", "https://mw-api.simulator.company/v/1.0/download/" ++ fileName)]], none)

/-- The loop of `uploadFiles` over the collected files. -/
def uploadLoop (env : Env) (uploadURL accessToken : String) :
    List UploadEntry → List String → List UploadEntry
  | uploadedFiles, [] => uploadedFiles
  | uploadedFiles, filePath :: rest =>
    match uploadAttempt env uploadedFiles filePath uploadURL accessToken with
    | (uploaded, some e) =>
      uploadLoop env uploadURL accessToken
        (uploaded ++ [[("filename", filepathBase filePath), ("error", e), ("status", "failed")]])
        rest
    | (uploaded, none) => uploadLoop env uploadURL accessToken uploaded rest

/-- The function `uploadFiles`: the records, the error, and one `upload` event
per file the loop went through. -/
def uploadFiles (env : Env) (files : List String) (uploadURL accessToken : String) :
    (List UploadEntry × Option String) × List Event :=
  if uploadURL = "" then ((([] : List UploadEntry), none), [])
  else if accessToken = "" then
    ((([] : List UploadEntry), some "access_token parameter is required"), [])
  else
    ((uploadLoop env uploadURL accessToken [] files, none),
      files.map (fun f => Event.upload f uploadURL accessToken))

/-- The loop over `argsList` in `usercode`: string elements are appended,
every other element is passed over. -/
def collectArgs (args : List String) : List GoVal → List String
  | [] => args
  | .str argStr :: rest => collectArgs (args ++ [argStr]) rest
  | _ :: rest => collectArgs args rest

/-- The path of the workspace directory computed in `usercode`. -/
def workspacePath (tempDir : String) (nanos : Int) : String :=
  filepathJoin tempDir ("ai-pipe-" ++ formatInt nanos)

/-- The `files` step of `usercode`: nothing to do without the key, an error
unless the value is an array, else `downloadFiles` with its error wrapped. -/
def fetchInputs (env : Env) (data : GoMap) (tmpDir : String) : Outcome Unit × List Event :=
  match GoMap.get data "files" with
  | none => (.ok (), [])
  | some (.slice filesList) =>
    match downloadFiles env tmpDir filesList with
    | (.err e, t) => (.err ("failed to download files: " ++ e), t)
    | other => other
  | some _ => (.err "files must be an array", [])

/-- The part of `usercode` that runs once the workspace exists, from the
`files` check to the final `return data, nil`. -/
def usercodeBody (env : Env) (data : GoMap) (commandName : String) (args : List String)
    (uploadURL accessToken tmpDir : String) (disk : Disk) : Run GoMap :=
  match fetchInputs env data tmpDir with
  | (.err e, t) => ⟨.err e, disk, t⟩
  | (.panicked v, t) => ⟨.panicked v, disk, t⟩
  | (.ok (), t) =>
    let cmdEnv := env.environ ++ ["XDG_CACHE_HOME=" ++ tmpDir]
    let started := t ++ [Event.exec commandName args tmpDir cmdEnv]
    let r := env.run commandName args tmpDir cmdEnv disk
    match r.status with
    | .panicked v => ⟨.panicked v, r.disk, started⟩
    | .failed _ => ⟨.err ("command error: " ++ r.output), r.disk, started⟩
    | .exited =>
      match collectFiles env tmpDir r.disk with
      | (_, some e) =>
        ⟨.err ("failed to collect files: " ++ e), r.disk, started ++ [.walk tmpDir]⟩
      | (files, none) =>
        match uploadFiles env files uploadURL accessToken with
        | ((_, some e), ups) =>
          ⟨.err ("failed to upload files: " ++ e), r.disk, started ++ [.walk tmpDir] ++ ups⟩
        | ((uploadedFiles, none), ups) =>
          ⟨.ok (((data.set "result" (.str r.output)).set "status" (.str "success")).set
              "uploaded_files" (.records uploadedFiles)),
            r.disk, started ++ [.walk tmpDir] ++ ups⟩

/-- The deferred `os.RemoveAll(tmpDir)`: it runs when the guarded part
returns or panics, and its error is dropped. -/
def deferRemoveAll (env : Env) (tmpDir : String) (r : Run GoMap) : Run GoMap :=
  ⟨r.out, (osRemoveAll env r.disk tmpDir).2, r.trace ++ [.removeAll tmpDir]⟩

/-- The `args` step of `usercode`: the key must be present and hold an
array, whose string elements become the argument list. -/
def parseArgs (data : GoMap) : Except String (List String) :=
  match GoMap.get data "args" with
  | none => .error "args parameter is required"
  | some (.slice argsList) => .ok (collectArgs [] argsList)
  | some _ => .error "args must be an array"

/-- The function `usercode`. -/
def usercode (env : Env) (data : GoMap) (disk : Disk) : Run GoMap :=
  match asString (GoMap.get data "command") with
  | none => ⟨.err "command parameter is required", disk, []⟩
  | some commandName =>
    if commandName = "" then ⟨.err "command parameter is required", disk, []⟩
    else
      let uploadURL := (asString (GoMap.get data "upload_url")).getD ""
      let accessToken := (asString (GoMap.get data "access_token")).getD ""
      match parseArgs data with
      | .error e => ⟨.err e, disk, []⟩
      | .ok args =>
        let tmpDir := workspacePath env.tempDir env.nanos
        match osMkdirAll env disk tmpDir with
        | (some e, disk1) =>
          ⟨.err ("failed to create temp directory: " ++ e), disk1, [.mkdirAll tmpDir]⟩
        | (none, disk1) =>
          let r := deferRemoveAll env tmpDir
            (usercodeBody env data commandName args uploadURL accessToken tmpDir disk1)
          ⟨r.out, r.disk, Event.mkdirAll tmpDir :: r.trace⟩

/-- The function `send_ok`: the envelope it marshals and writes. -/
def send_ok (id : String) (result : GoMap) : response :=
  { Jsonrpc := "2.0", ID := id, Result := result, Error := none }

/-- The function `send_err`: the envelope it marshals and writes. -/
def send_err (id : String) (code : Int) (message : String) : response :=
  { Jsonrpc := "2.0", ID := id, Result := [], Error := some ⟨code, message⟩ }

/-- The function `check_panic`, given what `recover()` returns. -/
def check_panic (r : HttpRequest) (recovered : Option String) : Option response :=
  match recovered with
  | some v => some (send_err r.requestId 1 v)
  | none => none

/-- The function `handler`: the envelope written, the directories left on
disk and the external operations performed. -/
def handler (env : Env) (r : HttpRequest) (disk : Disk) : Option response × Disk × List Event :=
  match r.body with
  | .error e => (some (send_err "" 1 e), disk, [])
  | .ok body =>
    match env.unmarshal body with
    | .error e => (some (send_err "" 1 e), disk, [])
    | .ok req =>
      let u := usercode env req.Params disk
      match u.out with
      | .err e => (some (send_err req.ID 1 e), u.disk, u.trace)
      | .ok result => (some (send_ok req.ID result), u.disk, u.trace)
      | .panicked v => (check_panic r (some v), u.disk, u.trace)

/-- The members `json.Marshal` writes for a `response`, by the struct tags:
`jsonrpc` always, `id` unless empty, `result` unless the map is empty,
`error` unless the pointer is nil. -/
def encodedFields (resp : response) : List String :=
  ["jsonrpc"] ++ (if resp.ID = "" then [] else ["id"])
    ++ (if resp.Result.length = 0 then [] else ["result"])
    ++ (if resp.Error.isSome then ["error"] else [])

/-- The `UploadResult` of the data model for one file, by the outcome of its
upload attempt: `filename`, `error` and `status` "failed" when the attempt
returned an error; `file_name`, `size` and `file_link` when the answer was
decoded; `filename`, `size` and `status` "uploaded" when it was not. -/
def uploadResult (env : Env) (uploadURL accessToken filePath : String) : UploadEntry :=
  match (uploadAttempt env [] filePath uploadURL accessToken).2,
    env.upload filePath uploadURL accessToken with
  | some e, _ => [("filename", filepathBase filePath), ("error", e), ("status", "failed")]
  | none, .responded size _ _ (.ok (title, fileName)) =>
    [("file_name", title), ("size", formatInt size),
      ("file_link", "https://mw-api.simulator.company/v/1.0/download/" ++ fileName)]
  | none, .responded size _ _ (.error _) =>
    [("filename", filepathBase filePath), ("size", formatInt size), ("status", "uploaded")]
  | none, _ => []

/-! ## Sample environments -/

/-- An environment in which every external call succeeds: the command prints
one line and leaves one output file, whose upload is answered with 200 and
a decodable body. -/
def calmEnv : Env where
  tempDir := "/tmp"
  nanos := 42
  environ := ["PATH=/usr/bin"]
  unmarshal := fun body =>
    if body = "" then .error "unexpected end of JSON input"
    else .ok ⟨"2.0", "7", "run",
      [("command", .str "echo"), ("args", .slice [.str "hi", .float64 0, .str "there"])]⟩
  mkdirAll := fun _ _ => none
  fetch := fun _ _ _ => .responded 200 .saved
  run := fun _ _ _ _ d => ⟨"hi there\n", .exited, d⟩
  walk := fun root _ => [.entry root true, .entry (root ++ "/out.txt") false]
  upload := fun _ _ _ => .responded 9 200 "\x7b\x7d" (.ok ("out", "f1"))
  removeAll := fun _ _ => none

/-- Parameters naming a command and its arguments, one of them not a string. -/
def echoParams : GoMap :=
  [("command", .str "echo"), ("args", .slice [.str "hi", .float64 0, .str "there"])]

/-- The environment `calmEnv` with a command that prints a diagnostic and
exits with status 1. -/
def failingEnv : Env :=
  { calmEnv with run := fun _ _ _ _ d => ⟨"boom\n", .failed "exit status 1", d⟩ }

/-- Parameters with an upload location and no access token. -/
def tokenlessParams : GoMap :=
  [("command", .str "make"), ("args", .slice []), ("upload_url", .str "http://store/up")]

/-- The environment `calmEnv` with two output files, the upload of the
second of which meets a network error. -/
def mixedEnv : Env :=
  { calmEnv with
    walk := fun root _ =>
      [.entry root true, .entry (root ++ "/a.txt") false, .entry (root ++ "/b.txt") false]
    upload := fun f _ _ =>
      if f = "/tmp/ai-pipe-42/a.txt" then .responded 3 200 "\x7b\x7d" (.ok ("a", "f-a"))
      else .doFailed "connection refused" }

/-- The environment `calmEnv` on a system where removing the workspace is
refused, as when the command left an entry that cannot be deleted. -/
def stuckEnv : Env :=
  { calmEnv with removeAll := fun _ _ => some "unlinkat /tmp/ai-pipe-42/keep: permission denied" }

/-- A request whose body decodes. -/
def echoRequest : HttpRequest := { body := .ok "\x7b\x7d", requestId := "" }

/-- Parameters with an input file whose name leads out of the workspace. -/
def escapingParams : GoMap :=
  [("command", .str "true"), ("args", .slice []),
    ("files", .slice [.object [("file_link", .str "http://store/a.txt"),
      ("file_name", .str "../ai-pipe-43/a.txt")]])]

/-- The environment `calmEnv` with a command that prints the entries of the
tree `/tmp/ai-pipe-43` and deletes them, as `find /tmp/ai-pipe-43 -print
-delete` does. -/
def pryingEnv : Env :=
  { calmEnv with
    run := fun _ _ _ _ d =>
      ⟨String.intercalate "\n" (d.filter (fun q => inTree "/tmp/ai-pipe-43" q)), .exited,
        d.filter (fun q => !inTree "/tmp/ai-pipe-43" q)⟩ }

/-- Parameters naming the command of `pryingEnv`. -/
def pryParams : GoMap :=
  [("command", .str "find"),
    ("args", .slice [.str "/tmp/ai-pipe-43", .str "-print", .str "-delete"])]

/-! ## Maps -/

theorem get_filter_ne (m : GoMap) (key k : String) (h : k ≠ key) :
    GoMap.get (m.filter (fun kv => decide (kv.1 ≠ key))) k = GoMap.get m k := by
  induction m with
  | nil => rfl
  | cons kv rest ih =>
    obtain ⟨a, b⟩ := kv
    by_cases hk : a = key
    · have hne : a ≠ k := fun h2 => h (hk ▸ h2.symm)
      rw [List.filter_cons_of_neg (by simp [hk]), ih]
      simp [GoMap.get, hne]
    · rw [List.filter_cons_of_pos (by simp [hk])]
      by_cases hak : a = k
      · simp [GoMap.get, hak]
      · simp only [GoMap.get, hak, if_false, ih]

theorem get_set_same (m : GoMap) (key : String) (v : GoVal) :
    GoMap.get (m.set key v) key = some v := by
  simp [GoMap.set, GoMap.get]

theorem get_set_other (m : GoMap) (key k : String) (v : GoVal) (h : k ≠ key) :
    GoMap.get (m.set key v) k = GoMap.get m k := by
  have hne : key ≠ k := fun h2 => h h2.symm
  unfold GoMap.set
  simp only [GoMap.get, hne, if_false]
  exact get_filter_ne m key k h

/-! ## Validation -/

theorem collectArgs_eq (l : List GoVal) (acc : List String) :
    collectArgs acc l = acc ++ l.filterMap (fun v => asString (some v)) := by
  induction l generalizing acc with
  | nil => simp [collectArgs]
  | cons v rest ih => cases v <;> simp [collectArgs, ih, asString]

theorem usercode_no_command (env : Env) (data : GoMap) (disk : Disk)
    (h : asString (GoMap.get data "command") = none ∨
      asString (GoMap.get data "command") = some "") :
    usercode env data disk = ⟨.err "command parameter is required", disk, []⟩ := by
  rcases h with h | h <;> simp [usercode, h]

/-- C3: when `command` is absent, is not a string or is the empty string,
`usercode` returns the error "command parameter is required" and no result
map, whatever the other keys and the environment are, and the envelope the
handler writes for such a request carries `error` and no `result`. -/
theorem command_required (env : Env) (data : GoMap) (disk : Disk)
    (h : GoMap.get data "command" = none ∨
      (∃ v, GoMap.get data "command" = some v ∧ ∀ s, v ≠ .str s) ∨
      GoMap.get data "command" = some (.str "")) :
    (usercode env data disk).out = .err "command parameter is required" ∧
    (∀ (r : HttpRequest) (body : String) (req : request),
      r.body = .ok body → env.unmarshal body = .ok req → req.Params = data →
      ∃ resp, (handler env r disk).1 = some resp ∧
        resp.Error = some ⟨1, "command parameter is required"⟩ ∧ resp.Result = [] ∧
        "error" ∈ encodedFields resp ∧ "result" ∉ encodedFields resp) := by
  have hs : asString (GoMap.get data "command") = none ∨
      asString (GoMap.get data "command") = some "" := by
    rcases h with h | ⟨v, hv, hns⟩ | h
    · left; simp [h, asString]
    · left
      rw [hv]
      cases v with
      | str s => exact absurd rfl (hns s)
      | _ => rfl
    · right; simp [h, asString]
  have hu := usercode_no_command env data disk hs
  refine ⟨by rw [hu], ?_⟩
  intro r body req hb hm hp
  refine ⟨send_err req.ID 1 "command parameter is required", ?_, rfl, rfl, ?_, ?_⟩
  · simp [handler, hb, hm, hp, hu]
  · simp [encodedFields, send_err]
  · by_cases hid : req.ID = "" <;> simp [encodedFields, send_err, hid]

/-- Witness of C3: parameters without a `command` key. -/
theorem command_required_witness :
    GoMap.get [("args", .slice [])] "command" = none ∧
    (usercode calmEnv [("args", .slice [])] []).out = .err "command parameter is required" :=
  ⟨rfl, (command_required calmEnv [("args", .slice [])] [] (Or.inl rfl)).1⟩

theorem parseArgs_error_iff (data : GoMap) :
    (∃ e, parseArgs data = .error e) ↔
      (GoMap.get data "args" = none ∨
        ∃ v, GoMap.get data "args" = some v ∧ ∀ l, v ≠ .slice l) := by
  unfold parseArgs
  cases hg : GoMap.get data "args" with
  | none => simp
  | some v =>
    cases v with
    | slice l => simp
    | _ => simp

/-- C4: for parameters with a non-empty string `command`, the `args` step
fails exactly when the key is absent (message "args parameter is required")
or its value is not an array (message "args must be an array"; null, string,
number and object values are such), `usercode` then returns that error before
any external operation, and the empty array passes with no argument. -/
theorem args_validation (env : Env) (data : GoMap) (disk : Disk) (commandName : String)
    (hcmd : GoMap.get data "command" = some (.str commandName)) (hne : commandName ≠ "") :
    ((∃ e, parseArgs data = .error e) ↔
      (GoMap.get data "args" = none ∨
        ∃ v, GoMap.get data "args" = some v ∧ ∀ l, v ≠ .slice l)) ∧
    (GoMap.get data "args" = none →
      parseArgs data = .error "args parameter is required" ∧
      usercode env data disk = ⟨.err "args parameter is required", disk, []⟩) ∧
    (∀ v, GoMap.get data "args" = some v → (∀ l, v ≠ .slice l) →
      parseArgs data = .error "args must be an array" ∧
      usercode env data disk = ⟨.err "args must be an array", disk, []⟩) ∧
    (GoMap.get data "args" = some .null → parseArgs data = .error "args must be an array") ∧
    (∀ s, GoMap.get data "args" = some (.str s) →
      parseArgs data = .error "args must be an array") ∧
    (∀ b, GoMap.get data "args" = some (.float64 b) →
      parseArgs data = .error "args must be an array") ∧
    (∀ kvs, GoMap.get data "args" = some (.object kvs) →
      parseArgs data = .error "args must be an array") ∧
    (GoMap.get data "args" = some (.slice []) → parseArgs data = .ok []) ∧
    (∀ l, GoMap.get data "args" = some (.slice l) →
      (∃ args, parseArgs data = .ok args) ∧
      (usercode env data disk).trace.head? =
        some (.mkdirAll (workspacePath env.tempDir env.nanos))) := by
  have hc : asString (GoMap.get data "command") = some commandName := by
    rw [hcmd]; rfl
  have hnot : ∀ v, GoMap.get data "args" = some v → (∀ l, v ≠ .slice l) →
      parseArgs data = .error "args must be an array" := by
    intro v hv hns
    unfold parseArgs
    rw [hv]
    cases v with
    | slice l => exact absurd rfl (hns l)
    | _ => rfl
  refine ⟨parseArgs_error_iff data, ?_, ?_, ?_, ?_, ?_, ?_, ?_, ?_⟩
  · intro hg
    have hp : parseArgs data = .error "args parameter is required" := by
      simp [parseArgs, hg]
    exact ⟨hp, by simp [usercode, hc, hne, hp]⟩
  · intro v hv hns
    have hp := hnot v hv hns
    exact ⟨hp, by simp [usercode, hc, hne, hp]⟩
  · intro hg
    exact hnot _ hg (fun l h => by cases h)
  · intro s hg
    exact hnot _ hg (fun l h => by cases h)
  · intro b hg
    exact hnot _ hg (fun l h => by cases h)
  · intro kvs hg
    exact hnot _ hg (fun l h => by cases h)
  · intro hg
    simp [parseArgs, hg, collectArgs]
  · intro l hg
    have hp : parseArgs data = .ok (collectArgs [] l) := by simp [parseArgs, hg]
    refine ⟨⟨_, hp⟩, ?_⟩
    simp only [usercode, hc, hne, hp, if_false]
    split <;> rfl

/-- Witness of C4: a request whose `args` is an object. -/
theorem args_validation_witness :
    GoMap.get [("command", .str "ls"), ("args", .object [])] "command" = some (.str "ls") ∧
    "ls" ≠ "" ∧
    parseArgs [("command", .str "ls"), ("args", .object [])] = .error "args must be an array" :=
  ⟨rfl, by decide,
    (args_validation calmEnv [("command", .str "ls"), ("args", .object [])] [] "ls" rfl
      (by decide)).2.2.2.2.2.2.1 [] rfl⟩

/-! ## The shape of a run -/

theorem usercode_valid (env : Env) (data : GoMap) (disk : Disk) (commandName : String)
    (args : List String) (hc : asString (GoMap.get data "command") = some commandName)
    (hne : commandName ≠ "") (hp : parseArgs data = .ok args) :
    usercode env data disk =
      match osMkdirAll env disk (workspacePath env.tempDir env.nanos) with
      | (some e, disk1) =>
        ⟨.err ("failed to create temp directory: " ++ e), disk1,
          [.mkdirAll (workspacePath env.tempDir env.nanos)]⟩
      | (none, disk1) =>
        let r := deferRemoveAll env (workspacePath env.tempDir env.nanos)
          (usercodeBody env data commandName args
            ((asString (GoMap.get data "upload_url")).getD "")
            ((asString (GoMap.get data "access_token")).getD "")
            (workspacePath env.tempDir env.nanos) disk1)
        ⟨r.out, r.disk, Event.mkdirAll (workspacePath env.tempDir env.nanos) :: r.trace⟩ := by
  simp [usercode, hc, hne, hp]

theorem downloadFiles_trace (env : Env) (tmpDir : String) (l : List GoVal) :
    ∀ ev ∈ (downloadFiles env tmpDir l).2,
      (∃ url, ev = Event.httpGet url) ∨ ∃ path, ev = Event.create path := by
  induction l with
  | nil => simp [downloadFiles]
  | cons v rest ih =>
    cases v with
    | object fileObj =>
      simp only [downloadFiles]
      split
      · simp
      · split
        · simp
        · split
          · simp
          · split
            · simp
            · split
              · simp
              · simp
              · split
                · simp
                · split
                  · simp
                  · simp
                  · simp only [List.mem_cons]
                    intro ev hev
                    rcases hev with h | h | h
                    · exact Or.inl ⟨_, h⟩
                    · exact Or.inr ⟨_, h⟩
                    · exact ih ev h
    | _ => simp [downloadFiles]

theorem fetchInputs_trace (env : Env) (data : GoMap) (tmpDir : String) :
    ∀ ev ∈ (fetchInputs env data tmpDir).2,
      (∃ url, ev = Event.httpGet url) ∨ ∃ path, ev = Event.create path := by
  unfold fetchInputs
  split
  · simp
  · split
    · rename_i l _ _ e t heq
      intro ev hev
      have := downloadFiles_trace env tmpDir l ev
      rw [heq] at this
      exact this hev
    · exact downloadFiles_trace env tmpDir _
  · simp

theorem uploadFiles_trace (env : Env) (files : List String) (uploadURL accessToken : String) :
    ∀ ev ∈ (uploadFiles env files uploadURL accessToken).2,
      ∃ f, ev = Event.upload f uploadURL accessToken := by
  unfold uploadFiles
  split
  · simp
  · split
    · simp
    · intro ev hev
      obtain ⟨f, _, hf⟩ := List.mem_map.mp hev
      exact ⟨f, hf.symm⟩

theorem usercodeBody_trace (env : Env) (data : GoMap) (commandName : String)
    (args : List String) (uploadURL accessToken tmpDir : String) (disk : Disk) :
    ∀ ev ∈ (usercodeBody env data commandName args uploadURL accessToken tmpDir disk).trace,
      ((∃ url, ev = Event.httpGet url) ∨ ∃ path, ev = Event.create path) ∨
      ev = Event.exec commandName args tmpDir (env.environ ++ ["XDG_CACHE_HOME=" ++ tmpDir]) ∨
      ev = Event.walk tmpDir ∨ ∃ f, ev = Event.upload f uploadURL accessToken := by
  have hf := fetchInputs_trace env data tmpDir
  intro ev
  unfold usercodeBody
  split
  · rename_i e t heq
    rw [heq] at hf
    intro hev
    exact Or.inl (hf ev hev)
  · rename_i v t heq
    rw [heq] at hf
    intro hev
    exact Or.inl (hf ev hev)
  · rename_i t heq
    rw [heq] at hf
    simp only []
    split
    · intro hev
      rcases List.mem_append.mp hev with h | h
      · exact Or.inl (hf ev h)
      · exact Or.inr (Or.inl (by simpa using h))
    · intro hev
      rcases List.mem_append.mp hev with h | h
      · exact Or.inl (hf ev h)
      · exact Or.inr (Or.inl (by simpa using h))
    · split
      · intro hev
        rcases List.mem_append.mp hev with h | h
        · rcases List.mem_append.mp h with h | h
          · exact Or.inl (hf ev h)
          · exact Or.inr (Or.inl (by simpa using h))
        · exact Or.inr (Or.inr (Or.inl (by simpa using h)))
      · rename_i files hcol
        have hu := uploadFiles_trace env files uploadURL accessToken
        split
        · rename_i e ups hup
          rw [hup] at hu
          intro hev
          rcases List.mem_append.mp hev with h | h
          · rcases List.mem_append.mp h with h | h
            · rcases List.mem_append.mp h with h | h
              · exact Or.inl (hf ev h)
              · exact Or.inr (Or.inl (by simpa using h))
            · exact Or.inr (Or.inr (Or.inl (by simpa using h)))
          · exact Or.inr (Or.inr (Or.inr (hu ev h)))
        · rename_i uploaded ups hup
          rw [hup] at hu
          intro hev
          rcases List.mem_append.mp hev with h | h
          · rcases List.mem_append.mp h with h | h
            · rcases List.mem_append.mp h with h | h
              · exact Or.inl (hf ev h)
              · exact Or.inr (Or.inl (by simpa using h))
            · exact Or.inr (Or.inr (Or.inl (by simpa using h)))
          · exact Or.inr (Or.inr (Or.inr (hu ev h)))

theorem usercodeBody_run_failed (env : Env) (data : GoMap) (commandName : String)
    (args : List String) (uploadURL accessToken tmpDir : String) (disk : Disk)
    (t : List Event) (e : String) (hf : fetchInputs env data tmpDir = (.ok (), t))
    (hr : (env.run commandName args tmpDir (env.environ ++ ["XDG_CACHE_HOME=" ++ tmpDir])
      disk).status = .failed e) :
    usercodeBody env data commandName args uploadURL accessToken tmpDir disk =
      ⟨.err ("command error: " ++ (env.run commandName args tmpDir
          (env.environ ++ ["XDG_CACHE_HOME=" ++ tmpDir]) disk).output),
        (env.run commandName args tmpDir (env.environ ++ ["XDG_CACHE_HOME=" ++ tmpDir])
          disk).disk,
        t ++ [Event.exec commandName args tmpDir
          (env.environ ++ ["XDG_CACHE_HOME=" ++ tmpDir])]⟩ := by
  simp [usercodeBody, hf, hr]

theorem usercodeBody_exited (env : Env) (data : GoMap) (commandName : String)
    (args : List String) (uploadURL accessToken tmpDir : String) (disk : Disk)
    (t : List Event) (files : List String)
    (hf : fetchInputs env data tmpDir = (.ok (), t))
    (hr : (env.run commandName args tmpDir (env.environ ++ ["XDG_CACHE_HOME=" ++ tmpDir])
      disk).status = .exited)
    (hcol : collectFiles env tmpDir (env.run commandName args tmpDir
      (env.environ ++ ["XDG_CACHE_HOME=" ++ tmpDir]) disk).disk = (files, none)) :
    usercodeBody env data commandName args uploadURL accessToken tmpDir disk =
      match uploadFiles env files uploadURL accessToken with
      | ((_, some e), ups) =>
        ⟨.err ("failed to upload files: " ++ e),
          (env.run commandName args tmpDir (env.environ ++ ["XDG_CACHE_HOME=" ++ tmpDir])
            disk).disk,
          t ++ [Event.exec commandName args tmpDir
            (env.environ ++ ["XDG_CACHE_HOME=" ++ tmpDir])] ++ [.walk tmpDir] ++ ups⟩
      | ((uploadedFiles, none), ups) =>
        ⟨.ok (((data.set "result" (.str (env.run commandName args tmpDir
            (env.environ ++ ["XDG_CACHE_HOME=" ++ tmpDir]) disk).output)).set
            "status" (.str "success")).set "uploaded_files" (.records uploadedFiles)),
          (env.run commandName args tmpDir (env.environ ++ ["XDG_CACHE_HOME=" ++ tmpDir])
            disk).disk,
          t ++ [Event.exec commandName args tmpDir
            (env.environ ++ ["XDG_CACHE_HOME=" ++ tmpDir])] ++ [.walk tmpDir] ++ ups⟩ := by
  simp [usercodeBody, hf, hr, hcol]

/-! ## Execution -/

theorem usercode_ok_of_steps (env : Env) (data : GoMap) (disk disk1 : Disk)
    (commandName tmpDir : String) (argsList : List GoVal) (t : List Event) (r : ExecResult)
    (files : List String) (ups : List UploadEntry)
    (hcmd : GoMap.get data "command" = some (.str commandName)) (hne : commandName ≠ "")
    (hargs : GoMap.get data "args" = some (.slice argsList))
    (htmp : tmpDir = workspacePath env.tempDir env.nanos)
    (hmk : osMkdirAll env disk tmpDir = (none, disk1))
    (hfetch : fetchInputs env data tmpDir = (.ok (), t))
    (hrun : env.run commandName (collectArgs [] argsList) tmpDir
      (env.environ ++ ["XDG_CACHE_HOME=" ++ tmpDir]) disk1 = r)
    (hexit : r.status = .exited)
    (hcol : collectFiles env tmpDir r.disk = (files, none))
    (hup : (uploadFiles env files ((asString (GoMap.get data "upload_url")).getD "")
      ((asString (GoMap.get data "access_token")).getD "")).1 = (ups, none)) :
    (usercode env data disk).out =
      .ok (((data.set "result" (.str r.output)).set "status" (.str "success")).set
        "uploaded_files" (.records ups)) := by
  have hc : asString (GoMap.get data "command") = some commandName := by rw [hcmd]; rfl
  have hp : parseArgs data = .ok (collectArgs [] argsList) := by simp [parseArgs, hargs]
  subst htmp
  subst hrun
  rw [usercode_valid env data disk commandName _ hc hne hp]
  simp only [hmk, deferRemoveAll]
  rw [usercodeBody_exited env data commandName _ _ _ _ disk1 t files hfetch hexit hcol]
  rcases hU : uploadFiles env files ((asString (GoMap.get data "upload_url")).getD "")
    ((asString (GoMap.get data "access_token")).getD "") with ⟨⟨u, e⟩, evs⟩
  rw [hU] at hup
  simp only [Prod.mk.injEq] at hup
  obtain ⟨h1, h2⟩ := hup
  subst h1
  subst h2
  rfl

/-- C1: for parameters that pass validation, when the workspace is created,
the inputs are fetched, the command exits 0 and the collect and upload steps
return no error, `usercode` returns no error and the original map with
`result` set to the captured output, `status` set to "success" and
`uploaded_files` set to the records of the upload step; every other key keeps
the value it had. -/
theorem usercode_success (env : Env) (data : GoMap) (disk disk1 : Disk)
    (commandName tmpDir : String) (argsList : List GoVal) (t : List Event) (r : ExecResult)
    (files : List String) (ups : List UploadEntry)
    (hcmd : GoMap.get data "command" = some (.str commandName)) (hne : commandName ≠ "")
    (hargs : GoMap.get data "args" = some (.slice argsList))
    (htmp : tmpDir = workspacePath env.tempDir env.nanos)
    (hmk : osMkdirAll env disk tmpDir = (none, disk1))
    (hfetch : fetchInputs env data tmpDir = (.ok (), t))
    (hrun : env.run commandName (collectArgs [] argsList) tmpDir
      (env.environ ++ ["XDG_CACHE_HOME=" ++ tmpDir]) disk1 = r)
    (hexit : r.status = .exited)
    (hcol : collectFiles env tmpDir r.disk = (files, none))
    (hup : (uploadFiles env files ((asString (GoMap.get data "upload_url")).getD "")
      ((asString (GoMap.get data "access_token")).getD "")).1 = (ups, none)) :
    ∃ m, (usercode env data disk).out = .ok m ∧
      m = ((data.set "result" (.str r.output)).set "status" (.str "success")).set
        "uploaded_files" (.records ups) ∧
      GoMap.get m "result" = some (.str r.output) ∧
      GoMap.get m "status" = some (.str "success") ∧
      GoMap.get m "uploaded_files" = some (.records ups) ∧
      ∀ k, k ≠ "result" → k ≠ "status" → k ≠ "uploaded_files" →
        GoMap.get m k = GoMap.get data k := by
  refine ⟨_, usercode_ok_of_steps env data disk disk1 commandName tmpDir argsList t r files ups
    hcmd hne hargs htmp hmk hfetch hrun hexit hcol hup, rfl, ?_, ?_, ?_, ?_⟩
  · rw [get_set_other _ _ _ _ (by decide), get_set_other _ _ _ _ (by decide), get_set_same]
  · rw [get_set_other _ _ _ _ (by decide), get_set_same]
  · rw [get_set_same]
  · intro k h1 h2 h3
    rw [get_set_other _ _ _ _ h3, get_set_other _ _ _ _ h2, get_set_other _ _ _ _ h1]

/-- Witness of C1: the command `echo` in an environment where every step
succeeds and no upload location is given. -/
theorem usercode_success_witness :
    GoMap.get echoParams "command" = some (.str "echo") ∧
    (calmEnv.run "echo" ["hi", "there"] "/tmp/ai-pipe-42"
      ["PATH=/usr/bin", "XDG_CACHE_HOME=/tmp/ai-pipe-42"] ["/tmp/ai-pipe-42"]).status
      = .exited ∧
    (usercode calmEnv echoParams []).out =
      .ok (((echoParams.set "result" (.str "hi there\n")).set "status" (.str "success")).set
        "uploaded_files" (.records [])) := by
  obtain ⟨m, h1, h2, _⟩ := usercode_success calmEnv echoParams [] ["/tmp/ai-pipe-42"]
    "echo" "/tmp/ai-pipe-42" [.str "hi", .float64 0, .str "there"] []
    ⟨"hi there\n", .exited, ["/tmp/ai-pipe-42"]⟩ ["/tmp/ai-pipe-42/out.txt"] []
    rfl (by decide) rfl rfl rfl rfl rfl rfl rfl rfl
  exact ⟨rfl, rfl, h2 ▸ h1⟩

/-- C2: for parameters that pass validation, once the workspace is created
and the inputs are fetched, a command that reports a failure makes `usercode`
return an error and no map, the error message contains the captured output,
and the run performs no walk of the workspace and no upload. -/
theorem usercode_command_failed (env : Env) (data : GoMap) (disk disk1 : Disk)
    (commandName tmpDir : String) (argsList : List GoVal) (t : List Event) (r : ExecResult)
    (e : String)
    (hcmd : GoMap.get data "command" = some (.str commandName)) (hne : commandName ≠ "")
    (hargs : GoMap.get data "args" = some (.slice argsList))
    (htmp : tmpDir = workspacePath env.tempDir env.nanos)
    (hmk : osMkdirAll env disk tmpDir = (none, disk1))
    (hfetch : fetchInputs env data tmpDir = (.ok (), t))
    (hrun : env.run commandName (collectArgs [] argsList) tmpDir
      (env.environ ++ ["XDG_CACHE_HOME=" ++ tmpDir]) disk1 = r)
    (hfail : r.status = .failed e) :
    (∃ msg, (usercode env data disk).out = .err msg ∧
      msg = "command error: " ++ r.output ∧ r.output.data <:+: msg.data) ∧
    (∀ ev ∈ (usercode env data disk).trace,
      (∀ root, ev ≠ Event.walk root) ∧ ∀ f u k, ev ≠ Event.upload f u k) := by
  have hc : asString (GoMap.get data "command") = some commandName := by rw [hcmd]; rfl
  have hp : parseArgs data = .ok (collectArgs [] argsList) := by simp [parseArgs, hargs]
  subst htmp
  subst hrun
  have hu := usercode_valid env data disk commandName _ hc hne hp
  simp only [hmk, deferRemoveAll] at hu
  rw [usercodeBody_run_failed env data commandName _ _ _ _ disk1 t e hfetch hfail] at hu
  rw [hu]
  refine ⟨⟨_, rfl, rfl, ?_⟩, ?_⟩
  · exact ⟨"command error: ".data, [], by simp⟩
  · have ht := fetchInputs_trace env data (workspacePath env.tempDir env.nanos)
    rw [hfetch] at ht
    intro ev hev
    simp only [List.mem_cons, List.mem_append, List.mem_singleton, List.not_mem_nil,
      or_false] at hev
    rcases hev with h | (h | h) | h
    · subst h
      exact ⟨fun _ h2 => Event.noConfusion h2, fun _ _ _ h2 => Event.noConfusion h2⟩
    · rcases ht ev h with ⟨url, hurl⟩ | ⟨path, hurl⟩
      · subst hurl
        exact ⟨fun _ h2 => Event.noConfusion h2, fun _ _ _ h2 => Event.noConfusion h2⟩
      · subst hurl
        exact ⟨fun _ h2 => Event.noConfusion h2, fun _ _ _ h2 => Event.noConfusion h2⟩
    · subst h
      exact ⟨fun _ h2 => Event.noConfusion h2, fun _ _ _ h2 => Event.noConfusion h2⟩
    · subst h
      exact ⟨fun _ h2 => Event.noConfusion h2, fun _ _ _ h2 => Event.noConfusion h2⟩

/-- Witness of C2: a command that prints "boom" and exits with status 1. -/
theorem usercode_command_failed_witness :
    (failingEnv.run "echo" ["hi", "there"] "/tmp/ai-pipe-42"
      ["PATH=/usr/bin", "XDG_CACHE_HOME=/tmp/ai-pipe-42"] ["/tmp/ai-pipe-42"]).status
      = .failed "exit status 1" ∧
    (usercode failingEnv echoParams []).out = .err "command error: boom\n" := by
  obtain ⟨⟨msg, h1, h2, _⟩, _⟩ := usercode_command_failed failingEnv echoParams []
    ["/tmp/ai-pipe-42"] "echo" "/tmp/ai-pipe-42" [.str "hi", .float64 0, .str "there"] []
    ⟨"boom\n", .failed "exit status 1", ["/tmp/ai-pipe-42"]⟩ "exit status 1"
    rfl (by decide) rfl rfl rfl rfl rfl rfl
  exact ⟨rfl, by rw [h1, h2]; rfl⟩

theorem usercodeBody_exec_mem (env : Env) (data : GoMap) (commandName : String)
    (args : List String) (uploadURL accessToken tmpDir : String) (disk : Disk)
    (t : List Event) (hf : fetchInputs env data tmpDir = (.ok (), t)) :
    Event.exec commandName args tmpDir (env.environ ++ ["XDG_CACHE_HOME=" ++ tmpDir]) ∈
      (usercodeBody env data commandName args uploadURL accessToken tmpDir disk).trace := by
  simp only [usercodeBody, hf]
  split
  · simp
  · simp
  · split
    · simp
    · split <;> simp

theorem usercode_trace (env : Env) (data : GoMap) (disk : Disk) (commandName : String)
    (args : List String) (hc : asString (GoMap.get data "command") = some commandName)
    (hne : commandName ≠ "") (hp : parseArgs data = .ok args) :
    ∀ ev ∈ (usercode env data disk).trace,
      ev = Event.mkdirAll (workspacePath env.tempDir env.nanos) ∨
      ev = Event.removeAll (workspacePath env.tempDir env.nanos) ∨
      ((∃ url, ev = Event.httpGet url) ∨ ∃ path, ev = Event.create path) ∨
      ev = Event.exec commandName args (workspacePath env.tempDir env.nanos)
        (env.environ ++ ["XDG_CACHE_HOME=" ++ workspacePath env.tempDir env.nanos]) ∨
      ev = Event.walk (workspacePath env.tempDir env.nanos) ∨
      ∃ f, ev = Event.upload f ((asString (GoMap.get data "upload_url")).getD "")
        ((asString (GoMap.get data "access_token")).getD "") := by
  rw [usercode_valid env data disk commandName args hc hne hp]
  intro ev
  split
  · intro hev
    left
    simpa using hev
  · rename_i disk1 _
    intro hev
    simp only [deferRemoveAll, List.mem_cons, List.mem_append, List.mem_singleton,
      List.not_mem_nil, or_false] at hev
    rcases hev with h | h | h
    · exact Or.inl h
    · exact Or.inr (Or.inr (usercodeBody_trace env data commandName args _ _ _ disk1 ev h))
    · exact Or.inr (Or.inl h)

theorem strings_sublist (l : List GoVal) :
    List.Sublist ((l.filterMap (fun v => asString (some v))).map GoVal.str) l := by
  induction l with
  | nil => simp
  | cons v rest ih =>
    cases v with
    | str s => simpa [asString] using ih
    | _ => simpa [asString] using List.Sublist.cons _ ih

/-- C5: the argument list handed to the command is the list of the string
elements of the `args` array in their order, a sublist of the array with
every other element left out; elements that are not strings cause no error,
and every `exec` the run performs is on the named command with that list. -/
theorem args_handed_over (env : Env) (data : GoMap) (disk : Disk) (commandName : String)
    (argsList : List GoVal)
    (hcmd : GoMap.get data "command" = some (.str commandName)) (hne : commandName ≠ "")
    (hargs : GoMap.get data "args" = some (.slice argsList)) :
    parseArgs data = .ok (argsList.filterMap (fun v => asString (some v))) ∧
    List.Sublist ((argsList.filterMap (fun v => asString (some v))).map GoVal.str) argsList ∧
    (∀ s, GoVal.str s ∈ argsList → s ∈ argsList.filterMap (fun v => asString (some v))) ∧
    (∀ name a dir ce, Event.exec name a dir ce ∈ (usercode env data disk).trace →
      name = commandName ∧ a = argsList.filterMap (fun v => asString (some v))) ∧
    (∀ disk1 t, osMkdirAll env disk (workspacePath env.tempDir env.nanos) = (none, disk1) →
      fetchInputs env data (workspacePath env.tempDir env.nanos) = (.ok (), t) →
      Event.exec commandName (argsList.filterMap (fun v => asString (some v)))
        (workspacePath env.tempDir env.nanos)
        (env.environ ++ ["XDG_CACHE_HOME=" ++ workspacePath env.tempDir env.nanos]) ∈
        (usercode env data disk).trace) := by
  have hc : asString (GoMap.get data "command") = some commandName := by rw [hcmd]; rfl
  have hp : parseArgs data = .ok (argsList.filterMap (fun v => asString (some v))) := by
    simp [parseArgs, hargs, collectArgs_eq]
  refine ⟨hp, strings_sublist argsList, ?_, ?_, ?_⟩
  · intro s hs
    exact List.mem_filterMap.mpr ⟨_, hs, rfl⟩
  · intro name a dir ce hev
    rcases usercode_trace env data disk commandName _ hc hne hp _ hev with
      h | h | (⟨_, h⟩ | ⟨_, h⟩) | h | h | ⟨_, h⟩
    · cases h
    · cases h
    · cases h
    · cases h
    · cases h
      exact ⟨rfl, rfl⟩
    · cases h
    · cases h
  · intro disk1 t hmk hf
    rw [usercode_valid env data disk commandName _ hc hne hp]
    simp only [hmk, deferRemoveAll]
    exact List.mem_cons_of_mem _ (List.mem_append_left _
      (usercodeBody_exec_mem env data commandName _ _ _ _ disk1 t hf))

/-- Witness of C5: of the array `["hi", 0, "there"]` the command receives
`["hi", "there"]`. -/
theorem args_handed_over_witness :
    GoMap.get echoParams "args" = some (.slice [.str "hi", .float64 0, .str "there"]) ∧
    parseArgs echoParams = .ok ["hi", "there"] ∧
    Event.exec "echo" ["hi", "there"] "/tmp/ai-pipe-42"
      ["PATH=/usr/bin", "XDG_CACHE_HOME=/tmp/ai-pipe-42"] ∈
      (usercode calmEnv echoParams []).trace :=
  ⟨rfl,
    (args_handed_over calmEnv echoParams [] "echo" [.str "hi", .float64 0, .str "there"]
      rfl (by decide) rfl).1,
    (args_handed_over calmEnv echoParams [] "echo" [.str "hi", .float64 0, .str "there"]
      rfl (by decide) rfl).2.2.2.2 ["/tmp/ai-pipe-42"] [] rfl rfl⟩

/-! ## Upload prerequisites -/

theorem uploadFiles_no_token (env : Env) (files : List String) (uploadURL : String)
    (hurl : uploadURL ≠ "") :
    uploadFiles env files uploadURL "" =
      ((([] : List UploadEntry), some "access_token parameter is required"), []) := by
  simp [uploadFiles, hurl]

theorem usercodeBody_no_token (env : Env) (data : GoMap) (commandName : String)
    (args : List String) (uploadURL tmpDir : String) (disk : Disk) (hurl : uploadURL ≠ "") :
    ∀ m, (usercodeBody env data commandName args uploadURL "" tmpDir disk).out ≠ .ok m := by
  intro m
  unfold usercodeBody
  split
  · simp
  · simp
  · simp only []
    split
    · simp
    · simp
    · split
      · simp
      · rw [uploadFiles_no_token env _ uploadURL hurl]
        simp

/-- C6 as stated fails: with an upload location and no access token, a
command that exits with status 1 makes `usercode` return the command error,
which does not mention the access token. -/
theorem access_token_counterexample :
    GoMap.get tokenlessParams "command" = some (.str "make") ∧
    GoMap.get tokenlessParams "args" = some (.slice []) ∧
    GoMap.get tokenlessParams "upload_url" = some (.str "http://store/up") ∧
    GoMap.get tokenlessParams "access_token" = none ∧
    (usercode failingEnv tokenlessParams []).out = .err "command error: boom\n" ∧
    ¬ ("access_token".data <:+: "command error: boom\n".data) :=
  ⟨rfl, rfl, rfl, rfl, rfl, by decide⟩

/-- C6, amended: with valid `command` and `args`, a non-empty `upload_url` and
an `access_token` that is absent, empty or not a string, `usercode` never
returns a result map; and when the workspace is created, the inputs are
fetched, the command exits 0 and the walk succeeds, the error is the
access-token one, raised after the command was executed and before any
upload. -/
theorem access_token_required (env : Env) (data : GoMap) (disk : Disk)
    (commandName uploadURL : String) (argsList : List GoVal)
    (hcmd : GoMap.get data "command" = some (.str commandName)) (hne : commandName ≠ "")
    (hargs : GoMap.get data "args" = some (.slice argsList))
    (hurl : GoMap.get data "upload_url" = some (.str uploadURL)) (hurlne : uploadURL ≠ "")
    (htok : GoMap.get data "access_token" = none ∨
      (∃ v, GoMap.get data "access_token" = some v ∧ ∀ s, v ≠ .str s) ∨
      GoMap.get data "access_token" = some (.str "")) :
    (∀ m, (usercode env data disk).out ≠ .ok m) ∧
    (∀ (disk1 : Disk) (t : List Event) (files : List String),
      osMkdirAll env disk (workspacePath env.tempDir env.nanos) = (none, disk1) →
      fetchInputs env data (workspacePath env.tempDir env.nanos) = (.ok (), t) →
      (env.run commandName (collectArgs [] argsList) (workspacePath env.tempDir env.nanos)
        (env.environ ++ ["XDG_CACHE_HOME=" ++ workspacePath env.tempDir env.nanos])
        disk1).status = .exited →
      collectFiles env (workspacePath env.tempDir env.nanos)
        (env.run commandName (collectArgs [] argsList) (workspacePath env.tempDir env.nanos)
          (env.environ ++ ["XDG_CACHE_HOME=" ++ workspacePath env.tempDir env.nanos])
          disk1).disk = (files, none) →
      (usercode env data disk).out =
        .err "failed to upload files: access_token parameter is required" ∧
      Event.exec commandName (collectArgs [] argsList) (workspacePath env.tempDir env.nanos)
        (env.environ ++ ["XDG_CACHE_HOME=" ++ workspacePath env.tempDir env.nanos]) ∈
        (usercode env data disk).trace ∧
      ∀ f u k, Event.upload f u k ∉ (usercode env data disk).trace) := by
  have hc : asString (GoMap.get data "command") = some commandName := by rw [hcmd]; rfl
  have hp : parseArgs data = .ok (collectArgs [] argsList) := by simp [parseArgs, hargs]
  have hu : (asString (GoMap.get data "upload_url")).getD "" = uploadURL := by
    rw [hurl]; rfl
  have ht : (asString (GoMap.get data "access_token")).getD "" = "" := by
    rcases htok with h | ⟨v, hv, hns⟩ | h
    · rw [h]; rfl
    · rw [hv]
      cases v with
      | str s => exact absurd rfl (hns s)
      | _ => rfl
    · rw [h]; rfl
  have hval := usercode_valid env data disk commandName _ hc hne hp
  rw [hu, ht] at hval
  constructor
  · intro m
    rw [hval]
    split
    · simp
    · simp only [deferRemoveAll]
      exact usercodeBody_no_token env data commandName _ uploadURL _ _ hurlne m
  · intro disk1 t files hmk hf hexit hcol
    rw [hval]
    simp only [hmk, deferRemoveAll]
    rw [usercodeBody_exited env data commandName _ _ _ _ disk1 t files hf hexit hcol,
      uploadFiles_no_token env _ uploadURL hurlne]
    refine ⟨rfl, by simp, ?_⟩
    intro f u k hmem
    have hget := fetchInputs_trace env data (workspacePath env.tempDir env.nanos)
    rw [hf] at hget
    simp only [List.mem_cons, List.mem_append, List.mem_singleton, List.not_mem_nil,
      or_false] at hmem
    rcases hmem with h | ((h | h) | h) | h
    · cases h
    · rcases hget _ h with ⟨url, h2⟩ | ⟨path, h2⟩ <;> cases h2
    · cases h
    · cases h
    · cases h

/-- Witness of C6: the command succeeds and the request then fails on the
missing access token. -/
theorem access_token_required_witness :
    GoMap.get tokenlessParams "upload_url" = some (.str "http://store/up") ∧
    GoMap.get tokenlessParams "access_token" = none ∧
    (usercode calmEnv tokenlessParams []).out =
      .err "failed to upload files: access_token parameter is required" ∧
    Event.exec "make" [] "/tmp/ai-pipe-42" ["PATH=/usr/bin", "XDG_CACHE_HOME=/tmp/ai-pipe-42"] ∈
      (usercode calmEnv tokenlessParams []).trace :=
  ⟨rfl, rfl,
    ((access_token_required calmEnv tokenlessParams [] "make" "http://store/up" [] rfl
      (by decide) rfl rfl (by decide) (Or.inl rfl)).2 ["/tmp/ai-pipe-42"] []
      ["/tmp/ai-pipe-42/out.txt"] rfl rfl rfl rfl).1,
    ((access_token_required calmEnv tokenlessParams [] "make" "http://store/up" [] rfl
      (by decide) rfl rfl (by decide) (Or.inl rfl)).2 ["/tmp/ai-pipe-42"] []
      ["/tmp/ai-pipe-42/out.txt"] rfl rfl rfl rfl).2.1⟩

/-! ## Upload -/

theorem uploadLoop_step (env : Env) (uploadURL accessToken filePath : String)
    (acc : List UploadEntry) :
    (match uploadAttempt env acc filePath uploadURL accessToken with
      | (uploaded, some e) =>
        uploaded ++ [[("filename", filepathBase filePath), ("error", e), ("status", "failed")]]
      | (uploaded, none) => uploaded) =
      acc ++ [uploadResult env uploadURL accessToken filePath] := by
  unfold uploadResult uploadAttempt
  cases env.upload filePath uploadURL accessToken with
  | responded size status body decoded =>
    by_cases hs : status = 200
    · cases decoded with
      | error e => simp [hs]
      | ok v =>
        obtain ⟨title, fileName⟩ := v
        simp [hs]
    · simp [hs]
  | _ => simp

theorem uploadLoop_eq (env : Env) (uploadURL accessToken : String) (files : List String)
    (acc : List UploadEntry) :
    uploadLoop env uploadURL accessToken acc files =
      acc ++ files.map (uploadResult env uploadURL accessToken) := by
  induction files generalizing acc with
  | nil => simp [uploadLoop]
  | cons f rest ih =>
    have hstep := uploadLoop_step env uploadURL accessToken f acc
    unfold uploadLoop
    split
    · rename_i uploaded e heq
      rw [heq] at hstep
      simp only [] at hstep
      rw [ih, hstep]
      simp
    · rename_i uploaded heq
      rw [heq] at hstep
      simp only [] at hstep
      rw [ih, hstep]
      simp

/-- C7: with a non-empty `upload_url` and `access_token`, `uploadFiles`
returns no error and one record per collected file, in the order of the
files, whatever each attempt met: a failed attempt leaves `filename`, `error`
and `status` "failed", an answer 200 with a decodable body leaves a record
with `file_link`; the record of a file depends on its own attempt only, and a
request whose earlier steps succeeded returns the records under
`uploaded_files` with no error. -/
theorem uploads_recorded (env : Env) (files : List String) (uploadURL accessToken : String)
    (hurl : uploadURL ≠ "") (htok : accessToken ≠ "") :
    (uploadFiles env files uploadURL accessToken).1 =
      (files.map (uploadResult env uploadURL accessToken), none) ∧
    (uploadFiles env files uploadURL accessToken).1.1.length = files.length ∧
    (∀ i (h : i < files.length), (uploadFiles env files uploadURL accessToken).1.1[i]? =
      some (uploadResult env uploadURL accessToken (files.get ⟨i, h⟩))) ∧
    (∀ f e, (uploadAttempt env [] f uploadURL accessToken).2 = some e →
      uploadResult env uploadURL accessToken f =
        [("filename", filepathBase f), ("error", e), ("status", "failed")]) ∧
    (∀ f e, env.upload f uploadURL accessToken = .doFailed e →
      uploadResult env uploadURL accessToken f =
        [("filename", filepathBase f), ("error", "failed to upload file " ++ f ++ ": " ++ e),
          ("status", "failed")]) ∧
    (∀ f size body title fileName,
      env.upload f uploadURL accessToken = .responded size 200 body (.ok (title, fileName)) →
      uploadResult env uploadURL accessToken f =
        [("file_name", title), ("size", formatInt size),
          ("file_link", "https://mw-api.simulator.company/v/1.0/download/" ++ fileName)]) ∧
    (∀ (env2 : Env) f, env2.upload f uploadURL accessToken = env.upload f uploadURL accessToken →
      uploadResult env2 uploadURL accessToken f = uploadResult env uploadURL accessToken f) ∧
    (∀ (data : GoMap) (disk disk1 : Disk) (commandName : String) (argsList : List GoVal)
      (t : List Event),
      GoMap.get data "command" = some (.str commandName) → commandName ≠ "" →
      GoMap.get data "args" = some (.slice argsList) →
      GoMap.get data "upload_url" = some (.str uploadURL) →
      GoMap.get data "access_token" = some (.str accessToken) →
      osMkdirAll env disk (workspacePath env.tempDir env.nanos) = (none, disk1) →
      fetchInputs env data (workspacePath env.tempDir env.nanos) = (.ok (), t) →
      (env.run commandName (collectArgs [] argsList) (workspacePath env.tempDir env.nanos)
        (env.environ ++ ["XDG_CACHE_HOME=" ++ workspacePath env.tempDir env.nanos])
        disk1).status = .exited →
      collectFiles env (workspacePath env.tempDir env.nanos)
        (env.run commandName (collectArgs [] argsList) (workspacePath env.tempDir env.nanos)
          (env.environ ++ ["XDG_CACHE_HOME=" ++ workspacePath env.tempDir env.nanos])
          disk1).disk = (files, none) →
      ∃ m, (usercode env data disk).out = .ok m ∧
        GoMap.get m "status" = some (.str "success") ∧
        GoMap.get m "uploaded_files" =
          some (.records (files.map (uploadResult env uploadURL accessToken)))) := by
  have hmain : (uploadFiles env files uploadURL accessToken).1 =
      (files.map (uploadResult env uploadURL accessToken), none) := by
    simp [uploadFiles, hurl, htok, uploadLoop_eq]
  refine ⟨hmain, by rw [hmain]; simp, ?_, ?_, ?_, ?_, ?_, ?_⟩
  · intro i h
    rw [hmain]
    simp [List.getElem?_map, List.getElem?_eq_getElem h]
  · intro f e he
    simp [uploadResult, he]
  · intro f e he
    simp [uploadResult, uploadAttempt, he]
  · intro f size body title fileName he
    simp [uploadResult, uploadAttempt, he]
  · intro env2 f he
    simp [uploadResult, uploadAttempt, he]
  · intro data disk disk1 commandName argsList t hcmd hne hargs hu hk hmk hf hexit hcol
    have hup : (uploadFiles env files ((asString (GoMap.get data "upload_url")).getD "")
        ((asString (GoMap.get data "access_token")).getD "")).1 =
        (files.map (uploadResult env uploadURL accessToken), none) := by
      rw [hu, hk]
      exact hmain
    refine ⟨_, usercode_ok_of_steps env data disk disk1 commandName _ argsList t _ files _
      hcmd hne hargs rfl hmk hf rfl hexit hcol hup, ?_, ?_⟩
    · rw [get_set_other _ _ _ _ (by decide), get_set_same]
    · rw [get_set_same]

/-- Witness of C7: two files, the first answered with 200 and a decodable
body, the second meeting a network error. -/
theorem uploads_recorded_witness :
    "http://store/up" ≠ "" ∧ "tok" ≠ "" ∧
    (uploadFiles mixedEnv ["/tmp/ai-pipe-42/a.txt", "/tmp/ai-pipe-42/b.txt"] "http://store/up"
      "tok").1 =
      ([[("file_name", "a"), ("size", "3"),
          ("file_link", "https://mw-api.simulator.company/v/1.0/download/f-a")],
        [("filename", "b.txt"),
          ("error", "failed to upload file /tmp/ai-pipe-42/b.txt: connection refused"),
          ("status", "failed")]], none) :=
  ⟨by decide, by decide,
    (uploads_recorded mixedEnv ["/tmp/ai-pipe-42/a.txt", "/tmp/ai-pipe-42/b.txt"]
      "http://store/up" "tok" (by decide) (by decide)).1.trans rfl⟩

/-! ## The response envelope -/

theorem usercodeBody_ok (env : Env) (data : GoMap) (commandName : String)
    (args : List String) (uploadURL accessToken tmpDir : String) (disk : Disk) (m : GoMap)
    (h : (usercodeBody env data commandName args uploadURL accessToken tmpDir disk).out
      = .ok m) :
    ∃ out ups, m = ((data.set "result" (.str out)).set "status" (.str "success")).set
      "uploaded_files" (.records ups) := by
  unfold usercodeBody at h
  split at h
  · simp at h
  · simp at h
  · simp only [] at h
    split at h
    · simp at h
    · simp at h
    · split at h
      · simp at h
      · split at h
        · simp at h
        · simp only [Outcome.ok.injEq] at h
          exact ⟨_, _, h.symm⟩

theorem usercode_ok (env : Env) (data : GoMap) (disk : Disk) (m : GoMap)
    (h : (usercode env data disk).out = .ok m) :
    ∃ out ups, m = ((data.set "result" (.str out)).set "status" (.str "success")).set
      "uploaded_files" (.records ups) := by
  unfold usercode at h
  split at h
  · simp at h
  · split at h
    · simp at h
    · simp only [] at h
      split at h
      · simp at h
      · split at h
        · simp at h
        · simp only [deferRemoveAll] at h
          exact usercodeBody_ok _ _ _ _ _ _ _ _ m h

theorem fields_of_error (id : String) (code : Int) (message : String) :
    "error" ∈ encodedFields (send_err id code message) ∧
    "result" ∉ encodedFields (send_err id code message) := by
  by_cases hid : id = "" <;> simp [encodedFields, send_err, hid]

theorem fields_of_result (id : String) (m : GoMap) (hm : m ≠ []) :
    "result" ∈ encodedFields (send_ok id m) ∧ "error" ∉ encodedFields (send_ok id m) := by
  by_cases hid : id = "" <;> simp [encodedFields, send_ok, hid, hm]

/-- C9: whatever the request and the environment, the handler writes one
envelope, and exactly one of `result` and `error` is in it: an unreadable
body, a body that does not decode, an error of `usercode` and a recovered
panic give `error` and an empty `result`, which the encoding omits; success
gives a non-empty `result` map and a nil `error`. -/
theorem envelope_exclusive (env : Env) (r : HttpRequest) (disk : Disk) :
    ∃ resp, (handler env r disk).1 = some resp ∧
      ((resp.Error.isSome = true ∧ resp.Result = [] ∧
          "error" ∈ encodedFields resp ∧ "result" ∉ encodedFields resp) ∨
        (resp.Error = none ∧ resp.Result ≠ [] ∧
          "result" ∈ encodedFields resp ∧ "error" ∉ encodedFields resp)) ∧
      (∀ e, r.body = .error e → resp = send_err "" 1 e) ∧
      (∀ body e, r.body = .ok body → env.unmarshal body = .error e →
        resp = send_err "" 1 e) ∧
      (∀ body req e, r.body = .ok body → env.unmarshal body = .ok req →
        (usercode env req.Params disk).out = .err e → resp = send_err req.ID 1 e) ∧
      (∀ body req v, r.body = .ok body → env.unmarshal body = .ok req →
        (usercode env req.Params disk).out = .panicked v →
        resp = send_err r.requestId 1 v) ∧
      (∀ body req m, r.body = .ok body → env.unmarshal body = .ok req →
        (usercode env req.Params disk).out = .ok m → resp = send_ok req.ID m ∧ m ≠ []) := by
  cases hb : r.body with
  | error e =>
    refine ⟨send_err "" 1 e, by simp [handler, hb], Or.inl ⟨rfl, rfl, fields_of_error _ _ _⟩,
      ?_, ?_, ?_, ?_, ?_⟩
    · intro e2 h2
      cases h2
      rfl
    · intro b2 e2 h2 _
      cases h2
    all_goals
      intro b2 req2 x h2 _ _
      cases h2
  | ok body =>
    cases hm : env.unmarshal body with
    | error e =>
      refine ⟨send_err "" 1 e, by simp [handler, hb, hm],
        Or.inl ⟨rfl, rfl, fields_of_error _ _ _⟩, ?_, ?_, ?_, ?_, ?_⟩
      · intro e2 h2
        cases h2
      · intro b2 e2 h2 h3
        cases h2
        rw [hm] at h3
        cases h3
        rfl
      all_goals
        intro b2 req2 x h2 h3 _
        cases h2
        rw [hm] at h3
        cases h3
    | ok req =>
      cases hu : (usercode env req.Params disk).out with
      | err e =>
        refine ⟨send_err req.ID 1 e, by simp [handler, hb, hm, hu],
          Or.inl ⟨rfl, rfl, fields_of_error _ _ _⟩, ?_, ?_, ?_, ?_, ?_⟩
        · intro e2 h2
          cases h2
        · intro b2 e2 h2 h3
          cases h2
          rw [hm] at h3
          cases h3
        all_goals
          intro b2 req2 x h2 h3 h4
          cases h2
          rw [hm] at h3
          cases h3
          rw [hu] at h4
          cases h4
        rfl
      | panicked v =>
        refine ⟨send_err r.requestId 1 v, by simp [handler, hb, hm, hu, check_panic],
          Or.inl ⟨rfl, rfl, fields_of_error _ _ _⟩, ?_, ?_, ?_, ?_, ?_⟩
        · intro e2 h2
          cases h2
        · intro b2 e2 h2 h3
          cases h2
          rw [hm] at h3
          cases h3
        all_goals
          intro b2 req2 x h2 h3 h4
          cases h2
          rw [hm] at h3
          cases h3
          rw [hu] at h4
          cases h4
        rfl
      | ok m =>
        have hne : m ≠ [] := by
          obtain ⟨out, ups, hmeq⟩ := usercode_ok env req.Params disk m hu
          rw [hmeq]
          simp [GoMap.set]
        refine ⟨send_ok req.ID m, by simp [handler, hb, hm, hu],
          Or.inr ⟨rfl, hne, fields_of_result _ _ hne⟩, ?_, ?_, ?_, ?_, ?_⟩
        · intro e2 h2
          cases h2
        · intro b2 e2 h2 h3
          cases h2
          rw [hm] at h3
          cases h3
        all_goals
          intro b2 req2 x h2 h3 h4
          cases h2
          rw [hm] at h3
          cases h3
          rw [hu] at h4
          cases h4
        exact ⟨rfl, hne⟩

/-! ## The workspace -/

theorem inTree_self (p : String) : inTree p p = true := by
  simp [inTree]

theorem osRemoveAll_gone (env : Env) (disk : Disk) (p : String)
    (h : env.removeAll disk p = none) : p ∉ (osRemoveAll env disk p).2 := by
  simp [osRemoveAll, h, inTree_self]

theorem usercode_cases (env : Env) (data : GoMap) (disk : Disk) :
    ((usercode env data disk).trace = [] ∧ (usercode env data disk).disk = disk) ∨
    ∃ commandName args, asString (GoMap.get data "command") = some commandName ∧
      commandName ≠ "" ∧ parseArgs data = .ok args := by
  cases hc : asString (GoMap.get data "command") with
  | none => left; simp [usercode, hc]
  | some commandName =>
    by_cases hne : commandName = ""
    · left; simp [usercode, hc, hne]
    · cases hp : parseArgs data with
      | error e => left; simp [usercode, hc, hne, hp]
      | ok args => exact Or.inr ⟨commandName, args, rfl, hne, rfl⟩

theorem osMkdirAll_failed (env : Env) (disk disk1 : Disk) (p e : String)
    (h : osMkdirAll env disk p = (some e, disk1)) : disk1 = disk ∧ p ∉ disk := by
  unfold osMkdirAll at h
  split at h
  · simp at h
  · rename_i hnot
    split at h
    · simp only [Prod.mk.injEq] at h
      exact ⟨h.2.symm, hnot⟩
    · simp at h

theorem handler_run (env : Env) (r : HttpRequest) (disk : Disk) (body : String)
    (req : request) (hb : r.body = .ok body) (hm : env.unmarshal body = .ok req) :
    handler env r disk =
      (some (match (usercode env req.Params disk).out with
        | .ok m => send_ok req.ID m
        | .err e => send_err req.ID 1 e
        | .panicked v => send_err r.requestId 1 v),
        (usercode env req.Params disk).disk, (usercode env req.Params disk).trace) := by
  cases hu : (usercode env req.Params disk).out <;> simp [handler, hb, hm, hu, check_panic]

/-- C8 as stated fails: the command exits 0, the request succeeds, the
deferred `os.RemoveAll` returns an error, which is dropped, and the workspace
directory is still on disk after the handler returned. -/
theorem workspace_left_counterexample :
    (handler stuckEnv echoRequest []).2.2 =
      [.mkdirAll "/tmp/ai-pipe-42",
        .exec "echo" ["hi", "there"] "/tmp/ai-pipe-42"
          ["PATH=/usr/bin", "XDG_CACHE_HOME=/tmp/ai-pipe-42"],
        .walk "/tmp/ai-pipe-42", .removeAll "/tmp/ai-pipe-42"] ∧
    "/tmp/ai-pipe-42" ∈ (handler stuckEnv echoRequest []).2.1 ∧
    ((handler stuckEnv echoRequest []).1.map (fun resp => resp.Error.isSome)) = some false :=
  ⟨rfl, by decide, rfl⟩

/-- C8, amended: every request ends in one of three ways. Either the
handler performed no external operation and the disk is as it was; or
`os.MkdirAll` failed, the workspace path is not on disk and nothing else was
done; or the workspace was created, and then, however the guarded part of
`usercode` ended (a map, an error or a panic), the deferred `os.RemoveAll`
is the last operation of the run, the disk the handler leaves is the one
that call leaves, the directory is gone when that call returns no error, the
disk is as the guarded part left it when that call returns an error, and the
envelope is the one of the guarded part: the error of `os.RemoveAll` is
discarded. -/
theorem workspace_removed (env : Env) (r : HttpRequest) (disk : Disk) :
    ((handler env r disk).2.2 = [] ∧ (handler env r disk).2.1 = disk) ∨
    (∃ e, osMkdirAll env disk (workspacePath env.tempDir env.nanos) = (some e, disk) ∧
      (handler env r disk).2.2 = [.mkdirAll (workspacePath env.tempDir env.nanos)] ∧
      (handler env r disk).2.1 = disk ∧
      workspacePath env.tempDir env.nanos ∉ (handler env r disk).2.1) ∨
    (∃ body req commandName args disk1 guarded,
      r.body = .ok body ∧ env.unmarshal body = .ok req ∧
      asString (GoMap.get req.Params "command") = some commandName ∧ commandName ≠ "" ∧
      parseArgs req.Params = .ok args ∧
      osMkdirAll env disk (workspacePath env.tempDir env.nanos) = (none, disk1) ∧
      guarded = usercodeBody env req.Params commandName args
        ((asString (GoMap.get req.Params "upload_url")).getD "")
        ((asString (GoMap.get req.Params "access_token")).getD "")
        (workspacePath env.tempDir env.nanos) disk1 ∧
      (handler env r disk).2.2 = Event.mkdirAll (workspacePath env.tempDir env.nanos) ::
        (guarded.trace ++ [Event.removeAll (workspacePath env.tempDir env.nanos)]) ∧
      (handler env r disk).2.1 =
        (osRemoveAll env guarded.disk (workspacePath env.tempDir env.nanos)).2 ∧
      (env.removeAll guarded.disk (workspacePath env.tempDir env.nanos) = none →
        workspacePath env.tempDir env.nanos ∉ (handler env r disk).2.1) ∧
      (∀ e, env.removeAll guarded.disk (workspacePath env.tempDir env.nanos) = some e →
        (handler env r disk).2.1 = guarded.disk) ∧
      (workspacePath env.tempDir env.nanos ∈ (handler env r disk).2.1 →
        workspacePath env.tempDir env.nanos ∈ guarded.disk ∧
        ∃ e, env.removeAll guarded.disk (workspacePath env.tempDir env.nanos) = some e) ∧
      (handler env r disk).1 = some (match guarded.out with
        | .ok m => send_ok req.ID m
        | .err e => send_err req.ID 1 e
        | .panicked v => send_err r.requestId 1 v)) := by
  cases hb : r.body with
  | error e => left; simp [handler, hb]
  | ok body =>
    cases hm : env.unmarshal body with
    | error e => left; simp [handler, hb, hm]
    | ok req =>
      rw [handler_run env r disk body req hb hm]
      rcases usercode_cases env req.Params disk with ⟨ht, hd⟩ | ⟨commandName, args, hc, hne, hpa⟩
      · exact Or.inl ⟨ht, hd⟩
      · right
        have hval := usercode_valid env req.Params disk commandName args hc hne hpa
        rcases hmk : osMkdirAll env disk (workspacePath env.tempDir env.nanos) with ⟨o, disk1⟩
        rw [hmk] at hval
        cases o with
        | some e =>
          left
          obtain ⟨hd1, hnot⟩ := osMkdirAll_failed env disk disk1 _ e hmk
          subst hd1
          rw [hval]
          exact ⟨e, rfl, rfl, rfl, hnot⟩
        | none =>
          right
          rw [hval]
          refine ⟨body, req, commandName, args, disk1, _, rfl, hm, hc, hne, hpa, rfl, rfl,
            rfl, rfl, ?_, ?_, ?_, rfl⟩
          · intro hnone
            exact osRemoveAll_gone env _ _ hnone
          · intro e he
            simp [deferRemoveAll, osRemoveAll, he]
          · intro hin
            simp only [deferRemoveAll] at hin
            cases hrm : env.removeAll (usercodeBody env req.Params commandName args
              ((asString (GoMap.get req.Params "upload_url")).getD "")
              ((asString (GoMap.get req.Params "access_token")).getD "")
              (workspacePath env.tempDir env.nanos) disk1).disk
              (workspacePath env.tempDir env.nanos) with
            | none => exact absurd hin (osRemoveAll_gone env _ _ hrm)
            | some e =>
              refine ⟨?_, e, rfl⟩
              simpa [osRemoveAll, hrm] using hin

/-- Witness of C8: a successful request on a system where `os.RemoveAll`
succeeds leaves no workspace behind. -/
theorem workspace_removed_witness :
    "/tmp/ai-pipe-42" ∉ (handler calmEnv echoRequest []).2.1 := by
  rcases workspace_removed calmEnv echoRequest [] with
    ⟨h, _⟩ | ⟨e, h, _⟩ | ⟨_, _, _, _, _, _, _, _, _, _, _, _, _, _, _, hgone, _⟩
  · exact absurd h (by decide)
  · have h2 : (osMkdirAll calmEnv [] (workspacePath calmEnv.tempDir calmEnv.nanos)).1 = none :=
      rfl
    rw [h] at h2
    cases h2
  · exact hgone rfl

/-! ## Workspace names -/

theorem digitChar_inj : ∀ a < 10, ∀ b < 10, digitChar a = digitChar b → a = b := by
  decide

theorem digitChar_plain : ∀ a < 10, digitChar a ≠ '/' ∧ digitChar a ≠ '-' := by
  decide

theorem decimalRev_ne_nil (fuel u : Nat) (h : 0 < fuel) : decimalRev fuel u ≠ [] := by
  cases fuel with
  | zero => omega
  | succ n =>
    unfold decimalRev
    split <;> simp

theorem decimalRev_plain (fuel u : Nat) :
    ∀ c ∈ decimalRev fuel u, c ≠ '/' ∧ c ≠ '-' := by
  induction fuel generalizing u with
  | zero => simp [decimalRev]
  | succ n ih =>
    intro c hc
    unfold decimalRev at hc
    split at hc
    · rename_i hlt
      simp only [List.mem_singleton] at hc
      subst hc
      exact digitChar_plain u hlt
    · simp only [List.mem_cons] at hc
      rcases hc with h | h
      · subst h
        exact digitChar_plain (u % 10) (Nat.mod_lt _ (by decide))
      · exact ih _ c h

theorem decimalRev_inj (f1 : Nat) :
    ∀ f2 a b, a < f1 → b < f2 → decimalRev f1 a = decimalRev f2 b → a = b := by
  induction f1 with
  | zero => intro f2 a b ha; omega
  | succ n ih =>
    intro f2 a b ha hb heq
    cases f2 with
    | zero => omega
    | succ k =>
      unfold decimalRev at heq
      by_cases h1 : a < 10
      · by_cases h2 : b < 10
        · simp only [h1, h2, if_true, List.cons.injEq, and_true] at heq
          exact digitChar_inj a h1 b h2 heq
        · simp only [h1, h2, if_true, if_false, List.cons.injEq] at heq
          exact absurd heq.2.symm (decimalRev_ne_nil k (b / 10) (by omega))
      · by_cases h2 : b < 10
        · simp only [h1, h2, if_true, if_false, List.cons.injEq] at heq
          exact absurd heq.2 (decimalRev_ne_nil n (a / 10) (by omega))
        · simp only [h1, h2, if_false, List.cons.injEq] at heq
          have hd := digitChar_inj (a % 10) (Nat.mod_lt _ (by decide)) (b % 10)
            (Nat.mod_lt _ (by decide)) heq.1
          have hq := ih k (a / 10) (b / 10) (by omega) (by omega) heq.2
          omega

theorem formatUint_inj (a b : Nat) (h : formatUint a = formatUint b) : a = b := by
  unfold formatUint at h
  have h2 := List.reverse_injective (congrArg String.data h)
  exact decimalRev_inj (a + 1) (b + 1) a b (by omega) (by omega) h2

theorem formatUint_plain (a : Nat) : ∀ c ∈ (formatUint a).data, c ≠ '/' ∧ c ≠ '-' := by
  intro c hc
  unfold formatUint at hc
  exact decimalRev_plain (a + 1) a c (List.mem_reverse.mp hc)

theorem formatUint_ne_nil (a : Nat) : (formatUint a).data ≠ [] := by
  unfold formatUint
  simpa using decimalRev_ne_nil (a + 1) a (by omega)

theorem formatInt_inj (i j : Int) (h : formatInt i = formatInt j) : i = j := by
  have hd := congrArg String.data h
  cases i with
  | ofNat a =>
    cases j with
    | ofNat b =>
      simp only [formatInt] at h
      rw [formatUint_inj a b h]
    | negSucc b =>
      exfalso
      simp only [formatInt, String.data_append] at hd
      have hmem : '-' ∈ (formatUint a).data := by
        rw [hd]
        exact List.mem_append_left _ (by decide)
      exact (formatUint_plain a '-' hmem).2 rfl
  | negSucc a =>
    cases j with
    | ofNat b =>
      exfalso
      simp only [formatInt, String.data_append] at hd
      have hmem : '-' ∈ (formatUint b).data := by
        rw [← hd]
        exact List.mem_append_left _ (by decide)
      exact (formatUint_plain b '-' hmem).2 rfl
    | negSucc b =>
      simp only [formatInt, String.data_append] at hd
      have h3 := List.append_cancel_left hd
      have h4 := formatUint_inj (a + 1) (b + 1) (String.ext h3)
      have h5 : a = b := by omega
      rw [h5]

theorem formatInt_no_slash (i : Int) : '/' ∉ (formatInt i).data := by
  intro hmem
  cases i with
  | ofNat a => exact (formatUint_plain a '/' hmem).1 rfl
  | negSucc a =>
    simp only [formatInt, String.data_append, List.mem_append] at hmem
    rcases hmem with h | h
    · revert h
      decide
    · exact (formatUint_plain (a + 1) '/' h).1 rfl

theorem splitPath_ne_nil (l : List Char) : splitPath l ≠ [] := by
  cases l with
  | nil => simp [splitPath]
  | cons c cs =>
    unfold splitPath
    split
    · simp
    · split <;> simp

theorem splitPath_append (a b : List Char) :
    splitPath (a ++ '/' :: b) = splitPath a ++ splitPath b := by
  induction a with
  | nil => simp [splitPath]
  | cons c cs ih =>
    by_cases hc : c = '/'
    · simp [splitPath, hc, ih]
    · simp only [List.cons_append, splitPath, hc, if_false]
      have ih2 : splitPath (cs.append ('/' :: b)) = splitPath cs ++ splitPath b := ih
      rw [ih2]
      cases hs : splitPath cs with
      | nil => exact absurd hs (splitPath_ne_nil cs)
      | cons x rest => simp

theorem splitPath_plain (e : List Char) (h : '/' ∉ e) : splitPath e = [e] := by
  induction e with
  | nil => rfl
  | cons c cs ih =>
    have hc : c ≠ '/' := fun h2 => h (h2 ▸ List.mem_cons_self _ _)
    have hcs : '/' ∉ cs := fun h2 => h (List.mem_cons_of_mem _ h2)
    simp [splitPath, hc, ih hcs]

theorem joinPath_concat (l : List (List Char)) :
    ∃ q : List Char, ∀ e, joinPath (l ++ [e]) = q ++ e := by
  induction l with
  | nil => exact ⟨[], fun e => rfl⟩
  | cons x rest ih =>
    obtain ⟨q, hq⟩ := ih
    refine ⟨x ++ '/' :: q, fun e => ?_⟩
    have hstep : joinPath (x :: (rest ++ [e])) = x ++ '/' :: joinPath (rest ++ [e]) := by
      cases rest <;> rfl
    rw [List.cons_append, hstep, hq e]
    simp

theorem cleanStep_real (rooted : Bool) (kept : List (List Char)) (e : List Char)
    (h1 : e ≠ []) (h2 : e ≠ ['.']) (h3 : e ≠ ['.', '.']) :
    cleanStep rooted kept e = e :: kept := by
  simp [cleanStep, h1, h2, h3]

theorem filepathJoin_child (dir : String) :
    ∃ p : List Char, ∀ e : List Char, '/' ∉ e → e ≠ [] → e ≠ ['.'] → e ≠ ['.', '.'] →
      (filepathJoin dir ⟨e⟩).data = p ++ e := by
  by_cases hd : dir = ""
  · subst hd
    refine ⟨[], fun e hs h1 h2 h3 => ?_⟩
    have hne : (⟨e⟩ : String) ≠ "" := fun h => h1 (congrArg String.data h)
    have hhead : (e.head? == some '/') = false := by
      cases e with
      | nil => rfl
      | cons c cs =>
        have hc : c ≠ '/' := fun h2 => hs (h2 ▸ List.mem_cons_self _ _)
        simp [hc]
    simp [filepathJoin, filepathClean, hne, hhead, splitPath_plain e hs,
      cleanStep_real _ _ e h1 h2 h3, joinPath, h1]
  · have hdata : dir.data ≠ [] := fun h => hd (String.ext h)
    obtain ⟨q, hq⟩ := joinPath_concat
      ((splitPath dir.data).foldl (cleanStep (dir.data.head? == some '/')) []).reverse
    refine ⟨if (dir.data.head? == some '/') = true then '/' :: q else q,
      fun e hs h1 h2 h3 => ?_⟩
    have hpath : (dir ++ "/" ++ (⟨e⟩ : String)).data = dir.data ++ '/' :: e := by
      simp [String.data_append]
    have hne : dir ++ "/" ++ (⟨e⟩ : String) ≠ "" := by
      intro h
      have := congrArg String.data h
      rw [hpath] at this
      simp at this
    have hhead : (dir.data ++ '/' :: e).head? = dir.data.head? := by
      cases hdd : dir.data with
      | nil => exact absurd hdd hdata
      | cons c cs => rfl
    have hbody : joinPath ((splitPath (dir.data ++ '/' :: e)).foldl
        (cleanStep (dir.data.head? == some '/')) []).reverse = q ++ e := by
      rw [splitPath_append, splitPath_plain e hs, List.foldl_append]
      simp only [List.foldl_cons, List.foldl_nil]
      rw [cleanStep_real _ _ e h1 h2 h3, List.reverse_cons, hq e]
    have hq_ne : q ++ e ≠ [] := by simp [h1]
    simp only [filepathJoin, hd, ne_eq, not_false_eq_true, if_true, filepathClean, hne, if_false,
      hpath, hhead, hbody]
    by_cases hr : (dir.data.head? == some '/') = true
    · simp [hr]
    · simp [hr, hq_ne]

theorem element_real (n : Int) :
    '/' ∉ ("ai-pipe-" ++ formatInt n).data ∧ ("ai-pipe-" ++ formatInt n).data ≠ [] ∧
    ("ai-pipe-" ++ formatInt n).data ≠ ['.'] ∧ ("ai-pipe-" ++ formatInt n).data ≠ ['.', '.'] := by
  have hd : ("ai-pipe-" ++ formatInt n).data = "ai-pipe-".data ++ (formatInt n).data :=
    String.data_append _ _
  refine ⟨?_, ?_, ?_, ?_⟩
  · rw [hd]
    intro hmem
    rcases List.mem_append.mp hmem with h | h
    · revert h
      decide
    · exact formatInt_no_slash n h
  all_goals
    rw [hd]
    intro h
    have := congrArg List.head? h
    simp at this

theorem workspacePath_data (tempDir : String) :
    ∃ p : List Char, ∀ n : Int,
      (workspacePath tempDir n).data = p ++ ("ai-pipe-".data ++ (formatInt n).data) := by
  obtain ⟨p, hp⟩ := filepathJoin_child tempDir
  refine ⟨p, fun n => ?_⟩
  obtain ⟨h0, h1, h2, h3⟩ := element_real n
  have h := hp ("ai-pipe-" ++ formatInt n).data h0 h1 h2 h3
  have hd : ("ai-pipe-" ++ formatInt n).data = "ai-pipe-".data ++ (formatInt n).data :=
    String.data_append _ _
  calc (workspacePath tempDir n).data
      = (filepathJoin tempDir ⟨("ai-pipe-" ++ formatInt n).data⟩).data := rfl
    _ = p ++ ("ai-pipe-" ++ formatInt n).data := h
    _ = p ++ ("ai-pipe-".data ++ (formatInt n).data) := by rw [hd]

theorem workspacePath_inj (tempDir : String) (n1 n2 : Int)
    (h : workspacePath tempDir n1 = workspacePath tempDir n2) : n1 = n2 := by
  have hd := congrArg String.data h
  obtain ⟨p, hp⟩ := workspacePath_data tempDir
  rw [hp n1, hp n2] at hd
  have h3 := List.append_cancel_left (List.append_cancel_left hd)
  exact formatInt_inj n1 n2 (String.ext h3)

theorem workspacePath_not_below (tempDir : String) (n1 n2 : Int) (h : n1 ≠ n2) :
    inTree (workspacePath tempDir n1) (workspacePath tempDir n2) = false := by
  unfold inTree
  rw [Bool.or_eq_false_iff]
  constructor
  · rw [beq_eq_false_iff_ne]
    exact fun heq => h (workspacePath_inj tempDir n1 n2 heq.symm)
  · rw [Bool.eq_false_iff]
    intro hpre
    rw [List.isPrefixOf_iff_prefix] at hpre
    obtain ⟨t, ht⟩ := hpre
    obtain ⟨p, hp⟩ := workspacePath_data tempDir
    rw [hp n1, hp n2] at ht
    simp only [List.append_assoc] at ht
    have h3 := List.append_cancel_left (List.append_cancel_left ht)
    apply formatInt_no_slash n2
    rw [← h3]
    simp

/-- C10 as stated fails, in each of its parts. Two requests that read the
same clock value are given the same workspace path: `os.MkdirAll` succeeds on
the directory the other request already created, and the request that
finishes first removes it. And with the distinct paths of the readings 42 and
43, the request of reading 42 still reaches the workspace of the other: an
input file named `../ai-pipe-43/a.txt` is created inside it, and the command
it runs prints the entries of that workspace into its own result and removes
them. -/
theorem workspace_shared_counterexample :
    calmEnv.nanos = failingEnv.nanos ∧
    workspacePath calmEnv.tempDir calmEnv.nanos
      = workspacePath failingEnv.tempDir failingEnv.nanos ∧
    (usercode calmEnv echoParams []).trace.head? = some (.mkdirAll "/tmp/ai-pipe-42") ∧
    (usercode failingEnv tokenlessParams ["/tmp/ai-pipe-42"]).trace.head?
      = some (.mkdirAll "/tmp/ai-pipe-42") ∧
    osMkdirAll failingEnv ["/tmp/ai-pipe-42"] "/tmp/ai-pipe-42" = (none, ["/tmp/ai-pipe-42"]) ∧
    (usercode failingEnv tokenlessParams ["/tmp/ai-pipe-42"]).disk = [] ∧
    workspacePath calmEnv.tempDir calmEnv.nanos ≠ workspacePath calmEnv.tempDir 43 ∧
    (usercode calmEnv escapingParams []).trace =
      [.mkdirAll "/tmp/ai-pipe-42", .httpGet "http://store/a.txt",
        .create "/tmp/ai-pipe-43/a.txt",
        .exec "true" [] "/tmp/ai-pipe-42" ["PATH=/usr/bin", "XDG_CACHE_HOME=/tmp/ai-pipe-42"],
        .walk "/tmp/ai-pipe-42", .removeAll "/tmp/ai-pipe-42"] ∧
    inTree (workspacePath calmEnv.tempDir 43) "/tmp/ai-pipe-43/a.txt" = true ∧
    (match (usercode pryingEnv pryParams ["/tmp/ai-pipe-43/notes", "/tmp/ai-pipe-43"]).out with
      | .ok m => asString (GoMap.get m "result")
      | _ => none) = some "/tmp/ai-pipe-43/notes\n/tmp/ai-pipe-43" ∧
    (usercode pryingEnv pryParams ["/tmp/ai-pipe-43/notes", "/tmp/ai-pipe-43"]).disk = [] :=
  ⟨rfl, rfl, rfl, rfl, rfl, rfl, by decide, rfl, rfl, rfl, rfl⟩

/-- C10, amended: two requests served from the same temporary directory are
given distinct workspace paths exactly when their clock readings differ; the
two paths then lie neither inside the other, so the removal of one workspace
leaves the other on disk. -/
theorem workspace_paths_distinct (env1 env2 : Env) (hdir : env1.tempDir = env2.tempDir) :
    (workspacePath env1.tempDir env1.nanos ≠ workspacePath env2.tempDir env2.nanos ↔
      env1.nanos ≠ env2.nanos) ∧
    (env1.nanos ≠ env2.nanos →
      inTree (workspacePath env1.tempDir env1.nanos) (workspacePath env2.tempDir env2.nanos)
        = false ∧
      inTree (workspacePath env2.tempDir env2.nanos) (workspacePath env1.tempDir env1.nanos)
        = false ∧
      ∀ disk, workspacePath env2.tempDir env2.nanos ∈ disk →
        workspacePath env2.tempDir env2.nanos ∈
          (osRemoveAll env1 disk (workspacePath env1.tempDir env1.nanos)).2) := by
  rw [hdir]
  refine ⟨⟨fun hne heq => hne (by rw [heq]), fun hclock heq =>
    hclock (workspacePath_inj _ _ _ heq)⟩, fun hclock => ?_⟩
  have h12 := workspacePath_not_below env2.tempDir env1.nanos env2.nanos hclock
  refine ⟨h12,
    workspacePath_not_below env2.tempDir env2.nanos env1.nanos (fun h => hclock h.symm), ?_⟩
  intro disk hin
  unfold osRemoveAll
  split
  · exact hin
  · exact List.mem_filter.mpr ⟨hin, by simp [h12]⟩

/-- Witness of C10: clock readings 42 and 43. -/
theorem workspace_paths_distinct_witness :
    calmEnv.tempDir = ({ calmEnv with nanos := 43 } : Env).tempDir ∧
    workspacePath "/tmp" 42 ≠ workspacePath "/tmp" 43 :=
  ⟨rfl, (workspace_paths_distinct calmEnv { calmEnv with nanos := 43 } rfl).1.mpr (by decide)⟩

end ConsoleTool
